import Mathlib

/-!
Verification of the Spring engine's Assimp model parser
(`rts/Rendering/Models/AssParser.cpp`) and the S3O texture handler lookup
(`rts/Rendering/Textures/S3OTextureHandler.h`).

The C++ code is shallowly embedded: `float` becomes `ℚ` (the claims under
study concern which values flow where, not rounding), `std::map<string,
S3DModelPiece*>` becomes an association list with insert-or-replace
semantics, and the mutable `S3DModel` threaded through the recursive
loader becomes explicit state passing.  Pointer aliasing of
`model->rootPiece` with the piece object under construction is modelled
by refreshing the stored root snapshot at each program point where the
C++ code has finished mutating the root piece before anyone reads it
(the only cross-alias reads are of `GetRootPiece()->name`, and identity
tests `piece == GetRootPiece()` which are replaced by the `isRoot` flag
that is equivalent to them in the source).

Helpers that live in headers outside the provided sources
(`3DModel.h`: constructors, `ComposeTransform`, `ComposeRotation`,
`SetNumTexCoorChannels`; `System/Util.h`: `IntToString`) are modelled
from the specification and carry a `Modelled from the spec:` note.
-/

/-- Spring's `float3`, embedded with exact rational components. -/
structure float3 where
  x : ℚ
  y : ℚ
  z : ℚ
deriving DecidableEq, Repr

namespace float3

def zero : float3 := ⟨0, 0, 0⟩

def ones : float3 := ⟨1, 1, 1⟩

def add (a b : float3) : float3 := ⟨a.x + b.x, a.y + b.y, a.z + b.z⟩

def sub (a b : float3) : float3 := ⟨a.x - b.x, a.y - b.y, a.z - b.z⟩

def smul (c : ℚ) (a : float3) : float3 := ⟨c * a.x, c * a.y, c * a.z⟩

/-- Component-wise `std::min` on `float3`. -/
def fmin (a b : float3) : float3 := ⟨min a.x b.x, min a.y b.y, min a.z b.z⟩

/-- Component-wise `std::max` on `float3`. -/
def fmax (a b : float3) : float3 := ⟨max a.x b.x, max a.y b.y, max a.z b.z⟩

/-- `float3::SqLength`. -/
def sqLength (a : float3) : ℚ := a.x * a.x + a.y * a.y + a.z * a.z

/-- Component-wise `≤`, used to state bounds-domination hypotheses. -/
def fle (a b : float3) : Prop := a.x ≤ b.x ∧ a.y ≤ b.y ∧ a.z ≤ b.z

instance : Add float3 := ⟨float3.add⟩

instance (a b : float3) : Decidable (fle a b) := by
  unfold fle; infer_instance

end float3

/-- The rotation part of Spring's `CMatrix44f`, stored as its three basis
columns (`GetX`/`GetY`/`GetZ`).  The parser only ever uses the upper-left
3x3 block plus a zero translation for piece-space transforms. -/
structure CMatrix33 where
  cx : float3
  cy : float3
  cz : float3
deriving DecidableEq, Repr

namespace CMatrix33

def identity : CMatrix33 := ⟨⟨1, 0, 0⟩, ⟨0, 1, 0⟩, ⟨0, 0, 1⟩⟩

/-- `CMatrix44f::Mul` restricted to direction vectors (zero translation). -/
def mulVec (m : CMatrix33) (v : float3) : float3 :=
  (float3.smul v.x m.cx) + (float3.smul v.y m.cy) + (float3.smul v.z m.cz)

end CMatrix33

/-- Modelled from the spec: `S3DModelPiece::ComposeTransform` invoked with
zero translation and zero extra rotation angles, i.e. the
scale-plus-rotation-only piece-space matrix built from `bakedRotMatrix`
and `scales` ("Compute a scale+rotation-only transform matrix from the
piece's `scales`/`bakedRotMatrix` (translation component zero)", spec
section 4.6).  Column `i` of `R * S` is the `i`-th rotation column scaled
by the `i`-th scale factor. -/
def composeScaleRot (rot : CMatrix33) (s : float3) : CMatrix33 :=
  ⟨float3.smul s.x rot.cx, float3.smul s.y rot.cy, float3.smul s.z rot.cz⟩

/-- The Metadata Table collaborator (`LuaTable`) at its consumed
interface: lookups return the caller-supplied default when a key is
absent (spec sections 1 and 6).  A table is modelled extensionally by its
lookup behaviour. -/
structure LuaTable where
  keyExists : String → Bool
  getFloat : String → ℚ → ℚ
  getFloat3 : String → float3 → float3
  getString : String → String → String
  getInt : String → Int → Int

/-- The trivial (absent / invalid) metadata table: every lookup falls
back to its default. -/
def emptyTable : LuaTable :=
  { keyExists := fun _ => false
    getFloat := fun _ d => d
    getFloat3 := fun _ d => d
    getString := fun _ d => d
    getInt := fun _ d => d }

/-- Modelled from the spec: `IntToString(i, "%02i")` from `System/Util.h`
(not among the provided sources) - decimal rendering of `i`, zero-padded
to a minimum width of two ("a deterministic zero-padded numeric suffix",
spec section 8; examples `Turret00`, `Turret01`). -/
def digitChar (d : Nat) : Char := Char.ofNat (48 + d)

/-- Decimal digit string of a natural number (most significant first). -/
def decRepr (n : Nat) : String :=
  if n = 0 then "0" else String.mk (((Nat.digits 10 n).reverse).map digitChar)

/-- `IntToString(i, "%02i")`: width-2 zero padding. -/
def intToString02 (n : Nat) : String :=
  if n < 10 then "0" ++ decRepr n else decRepr n

theorem foldrMaxLen_ge (l : List String) (s : String) (h : s ∈ l) :
    s.length ≤ l.foldr (fun t m => max t.length m) 0 := by
  induction l with
  | nil => cases h
  | cons a l ih =>
    rcases List.mem_cons.mp h with rfl | h2
    · exact le_max_left _ _
    · exact (ih h2).trans (le_max_right _ _)

theorem decRepr_pow_length (k : Nat) : (decRepr (10 ^ (k + 1))).length = k + 2 := by
  have hne : 10 ^ (k + 1) ≠ 0 := by positivity
  rw [decRepr, if_neg hne]
  show (((Nat.digits 10 (10 ^ (k + 1))).reverse).map digitChar).length = k + 2
  rw [List.length_map, List.length_reverse,
    Nat.digits_len 10 _ (by norm_num) hne, Nat.log_pow (by norm_num)]

/-- The suffix search in `CAssParser::SetPieceName` terminates: some
suffixed name avoids every existing key (a long enough numeral makes the
candidate longer than any stored key). -/
theorem freshSuffix_exists (keys : List String) (base : String) :
    ∃ i : Nat, base ++ intToString02 i ∉ keys := by
  refine ⟨10 ^ (keys.foldr (fun t m => max t.length m) 0 + 1), fun hmem => ?_⟩
  set K := keys.foldr (fun t m => max t.length m) 0 with hK
  have h10 : 10 ≤ 10 ^ (K + 1) := by
    calc 10 = 10 ^ 1 := by norm_num
    _ ≤ 10 ^ (K + 1) := Nat.pow_le_pow_right (by norm_num) (by omega)
  have hpad : intToString02 (10 ^ (K + 1)) = decRepr (10 ^ (K + 1)) := by
    rw [intToString02, if_neg (by omega)]
  have hlen : (base ++ intToString02 (10 ^ (K + 1))).length = base.length + (K + 2) := by
    rw [String.length_append, hpad, decRepr_pow_length]
  have hmax := foldrMaxLen_ge keys _ hmem
  rw [← hK] at hmax
  omega

/-- The suffix-collision loop of `CAssParser::SetPieceName` (lines
457-466): if `base` is already a key, append `IntToString(i, "%02i")`
for the first `i` whose suffixed name is unused. -/
def resolveCollision (keys : List String) (base : String) : String :=
  if base ∈ keys then base ++ intToString02 (Nat.find (freshSuffix_exists keys base))
  else base

/-- `CAssParser::SetPieceName` as a function of the node's reported name,
whether this piece is the model root, and the current `pieceMap` keys:
empty names become `"$$root$$"` (root, no collision pass - the root is
the first piece created) or `"$$piece$$"`, then the collision loop runs. -/
def setPieceName (keys : List String) (nodeName : String) (isRoot : Bool) : String :=
  if nodeName = "" then
    if isRoot then "$$root$$"
    else resolveCollision keys "$$piece$$"
  else resolveCollision keys nodeName

/-- A texture-coordinate pair (`float2`). -/
structure float2 where
  u : ℚ
  v : ℚ
deriving DecidableEq, Repr

/-- Modelled from the spec: `NUM_MODEL_UVCHANNS` from `3DModel.h` (not
among the provided sources) - the fixed number of texture-coordinate
channels a piece vertex can carry ("up to K texcoord pairs", spec
section 3; the draw code handles "extra UV channels (currently at most
one)" beyond the first). -/
def NUM_MODEL_UVCHANNS : Nat := 2

/-- `SAssVertex`.  Default-constructed fields are zero; the normal stays
at its default when the importer supplies a not-a-number sentinel
("leave normal at its default zero value", spec section 4.4). -/
structure SAssVertex where
  pos : float3
  normal : float3
  sTangent : float3
  tTangent : float3
  tc0 : float2
  tc1 : float2
deriving DecidableEq, Repr

def defaultVertex : SAssVertex :=
  { pos := float3.zero, normal := float3.zero, sTangent := float3.zero
    tTangent := float3.zero, tc0 := ⟨0, 0⟩, tc1 := ⟨0, 0⟩ }

/-- An `aiMesh` at the consumed interface: per-vertex positions, optional
normals (`none` encodes the importer's QNAN sentinel), optional
tangent/bitangent pairs, texture-coordinate channels (contiguous from
zero), and faces as index lists. -/
structure aiMesh where
  verts : List float3
  normals : List (Option float3)
  hasTangents : Bool
  tangents : List float3
  bitangents : List float3
  texChans : List (List float2)
  faces : List (List Nat)

def emptyMesh : aiMesh :=
  { verts := [], normals := [], hasTangents := false, tangents := []
    bitangents := [], texChans := [], faces := [] }

/-- An `aiNode` of the imported scene: reported name, the decomposition
of its local transform (`Decompose` yields scale, rotation, translation),
mesh indices into the scene's mesh array, and child nodes. -/
inductive aiNode where
  | mk (name : String) (scaleDec : float3) (transDec : float3)
       (rotDec : CMatrix33) (meshes : List Nat) (children : List aiNode)

def aiNode.nodeName : aiNode → String
  | .mk n _ _ _ _ _ => n

def aiNode.nodeChildren : aiNode → List aiNode
  | .mk _ _ _ _ _ cs => cs

/-- `SAssPiece` (only the fields the parser writes; `parent`/`children`
links are created by the second pass, modelled separately). -/
structure SAssPiece where
  name : String
  parentName : String
  offset : float3
  scales : float3
  bakedRotMatrix : CMatrix33
  rotAxisSigns : float3
  axisMapType : Int
  vertices : List SAssVertex
  vertexDrawIndices : List Nat
  mins : float3
  maxs : float3
  numTexCoordChannels : Nat
  hasGeometryData : Bool
  hasIdentityRotation : Bool
deriving DecidableEq

/-- Modelled from the spec: the `S3DModelPiece`/`SAssPiece` constructor
(`3DModel.h`, not among the provided sources).  Names start empty
(`SetPieceName` asserts this), geometry is empty, and the local bounds
start at the engine's sentinel extents so that the min/max folds in
`LoadPieceGeometry` work (compare the `DEF_MIN_SIZE`/`DEF_MAX_SIZE`
usage in the commented-out `CalculateModelMeshBounds`). -/
def defaultPiece : SAssPiece :=
  { name := "", parentName := "", offset := float3.zero, scales := float3.ones
    bakedRotMatrix := CMatrix33.identity, rotAxisSigns := ⟨-1, -1, -1⟩
    axisMapType := 0, vertices := [], vertexDrawIndices := []
    mins := ⟨10000, 10000, 10000⟩, maxs := ⟨-10000, -10000, -10000⟩
    numTexCoordChannels := 0, hasGeometryData := false
    hasIdentityRotation := false }

/-- The `S3DModel` state the parser mutates while loading pieces.
`pieceMap` is an association list standing for
`std::map<std::string, S3DModelPiece*>`; `operator[]` assignment is
insert-or-replace (`mapInsert`), `find` is key lookup.  (The sorted
iteration order of `std::map` is abstracted away; no settled claim
depends on it.) -/
structure S3DModel where
  numPieces : Int
  pieceMap : List (String × SAssPiece)
  rootPiece : Option SAssPiece
  height : ℚ
  radius : ℚ
  relMidPos : float3
  mins : float3
  maxs : float3
deriving DecidableEq

/-- Modelled from the spec: the `S3DModel` constructor (`3DModel.h`, not
among the provided sources) - a fresh model with no pieces, no root, and
sentinel bounds. -/
def initModel : S3DModel :=
  { numPieces := 0, pieceMap := [], rootPiece := none, height := 0
    radius := 0, relMidPos := float3.zero
    mins := ⟨10000, 10000, 10000⟩, maxs := ⟨-10000, -10000, -10000⟩ }

/-- `pieceMap[name] = piece`: `std::map::operator[]` assignment,
replacing the entry when the key exists and appending otherwise. -/
def mapInsert (m : List (String × SAssPiece)) (k : String) (v : SAssPiece) :
    List (String × SAssPiece) :=
  if k ∈ m.map Prod.fst then m.map (fun e => if e.1 = k then (k, v) else e)
  else m ++ [(k, v)]

/-- `S3DModel::FindPiece` / `pieceMap.find`. -/
def findPiece (m : List (String × SAssPiece)) (k : String) : Option SAssPiece :=
  List.lookup k m

/-- The loader's read-only context: the scene's mesh array, the composed
metadata lookup `modelTable.SubTable("pieces").SubTable(pieceName)`, and
the modelled rotation composer (see `AssCtx.composeRotation`). -/
structure AssCtx where
  scene : List aiMesh
  pieceTables : String → LuaTable
  /-- Modelled from the spec: `S3DModelPiece::ComposeRotation`
  (`3DModel.h`, not among the provided sources) composes the
  metadata-supplied Euler "pose" angles on top of the baked matrix ("an
  additional pose rotation layered on the imported orientation", spec
  section 4.1).  The trigonometric content (including the
  degree-to-radian conversion the caller performs) is abstracted as an
  arbitrary function of the matrix and the angle triple; no settled
  claim depends on its value. -/
  composeRotation : CMatrix33 → float3 → CMatrix33

/-- The scale part of `CAssParser::LoadPieceTransformations` (lines
287-291): the `scale` override (defaulting to the decomposed scale)
followed by the per-axis `scalex`/`scaley`/`scalez` overrides. -/
def scalesAfterOverrides (pt : LuaTable) (scaleDec : float3) : float3 :=
  let s := pt.getFloat3 "scale" scaleDec
  ⟨pt.getFloat "scalex" s.x, pt.getFloat "scaley" s.y, pt.getFloat "scalez" s.z⟩

/-- The isotropy enforcement of `CAssParser::LoadPieceTransformations`
(lines 293-297): if the three scale components are not all equal, force
Y and Z to the X component. -/
def applyIsotropy (s : float3) : float3 :=
  if s.x ≠ s.y ∨ s.y ≠ s.z then ⟨s.x, s.x, s.x⟩ else s

/-- The offset part of `CAssParser::LoadPieceTransformations` (lines
300-303): the `offset` override (defaulting to the decomposed
translation) followed by the per-axis overrides. -/
def offsetAfterOverrides (pt : LuaTable) (transDec : float3) : float3 :=
  let o := pt.getFloat3 "offset" transDec
  ⟨pt.getFloat "offsetx" o.x, pt.getFloat "offsety" o.y, pt.getFloat "offsetz" o.z⟩

/-- `CAssParser::LoadPieceTransformations` (lines 275-374).  `rotDec` is
the matrix form of the decomposed rotation quaternion (line 347).  The
Euler pose angles (`rotate`/`rotatex/y/z`, lines 312-317) are kept in
degrees here; the degree-to-radian factor is folded into the modelled
`ctx.composeRotation` they are passed to (line 370).  For the root piece
the `xaxis`/`yaxis`/`zaxis` basis override is accepted only when the
three axes have near-equal squared lengths (tolerance 0.01, lines
349-357). -/
def loadPieceTransformations (ctx : AssCtx) (piece : SAssPiece) (isRoot : Bool)
    (pt : LuaTable) (scaleDec transDec : float3) (rotDec : CMatrix33) : SAssPiece :=
  let scales := applyIsotropy (scalesAfterOverrides pt scaleDec)
  let offset := offsetAfterOverrides pt transDec
  let rotAngles0 := pt.getFloat3 "rotate" float3.zero
  let rotAngles : float3 :=
    ⟨pt.getFloat "rotatex" rotAngles0.x, pt.getFloat "rotatey" rotAngles0.y,
     pt.getFloat "rotatez" rotAngles0.z⟩
  let baked0 := rotDec
  let baked1 :=
    if isRoot then
      let xaxis := pt.getFloat3 "xaxis" baked0.cx
      let yaxis := pt.getFloat3 "yaxis" baked0.cy
      let zaxis := pt.getFloat3 "zaxis" baked0.cz
      if |xaxis.sqLength - yaxis.sqLength| < 1/100 ∧
         |yaxis.sqLength - zaxis.sqLength| < 1/100 then
        CMatrix33.mk xaxis yaxis zaxis
      else baked0
    else baked0
  let rotAxisSigns := pt.getFloat3 "rotAxisSigns" ⟨-1, -1, -1⟩
  let axisMapType := pt.getInt "rotAxisMap" 0
  let baked2 := ctx.composeRotation baked1 rotAngles
  { piece with
      scales := scales, offset := offset, bakedRotMatrix := baked2
      rotAxisSigns := rotAxisSigns, axisMapType := axisMapType
      hasIdentityRotation := decide (baked2 = CMatrix33.identity) }

/-- `CAssParser::SetModelRadiusAndHeight` (lines 376-440).  Returns the
updated model and whether the piece was consumed as a property marker.
For `"SpringHeight"`: when the piece's metadata has no `height` key, the
model height becomes the piece's offset Y.  For `"SpringRadius"`: when
there is no `midpos` key, `relMidPos` becomes the piece's offset
transformed by its own scale/rotation matrix; when there is no `radius`
key, the radius becomes `scales.x` (the `if (true || ...)` at line 413
makes the scale branch unconditional).  Both markers decrement
`numPieces` and delete the piece. -/
def setModelRadiusAndHeight (model : S3DModel) (piece : SAssPiece)
    (pt : LuaTable) : S3DModel × Bool :=
  if piece.name = "SpringHeight" then
    let model :=
      if pt.keyExists "height" = false then { model with height := piece.offset.y }
      else model
    ({ model with numPieces := model.numPieces - 1 }, true)
  else if piece.name = "SpringRadius" then
    let model :=
      if pt.keyExists "midpos" = false then
        { model with relMidPos :=
            (composeScaleRot piece.bakedRotMatrix piece.scales).mulVec piece.offset }
      else model
    let model :=
      if pt.keyExists "radius" = false then { model with radius := piece.scales.x }
      else model
    ({ model with numPieces := model.numPieces - 1 }, true)
  else (model, false)

/-- `CAssParser::SetPieceParentName` (lines 469-487).  `pinfo` is `none`
for the scene root (`mParent == NULL`) and otherwise carries the parent
node's reported name together with whether that parent is the tree root
(`mParent->mParent == NULL`); in the latter case the parent name is the
root piece's finally assigned name, read through `GetRootPiece()`. -/
def setPieceParentName (piece : SAssPiece) (pt : LuaTable)
    (pinfo : Option (String × Bool)) (rootName : String) : SAssPiece :=
  if pt.keyExists "parent" then { piece with parentName := pt.getString "parent" "" }
  else
    match pinfo with
    | none => piece
    | some (parentNodeName, parentIsRoot) =>
        if parentIsRoot then { piece with parentName := rootName }
        else { piece with parentName := parentNodeName }

/-- The per-vertex body of `CAssParser::LoadPieceGeometry` (lines
512-557): build the `SAssVertex`, update the piece extents, record the
mesh-local to piece-local index mapping (the current vertex-list size),
and append the vertex.  Texture channels are scanned contiguously from
zero up to `NUM_MODEL_UVCHANNS`, raising the piece's tracked channel
count (`SetNumTexCoorChannels` is modelled from the spec: "raise the
piece's tracked channel count to at least (channel index + 1)"). -/
def loadMeshVertex (mesh : aiMesh) (acc : SAssPiece × List Nat)
    (iv : Nat × float3) : SAssPiece × List Nat :=
  let piece := acc.1
  let mapping := acc.2
  let i := iv.1
  let v := iv.2
  let vert0 : SAssVertex :=
    { defaultVertex with
        pos := v
        normal :=
          match mesh.normals.getD i none with
          | some nv => nv
          | none => float3.zero
        sTangent := if mesh.hasTangents then mesh.tangents.getD i float3.zero
                    else float3.zero
        tTangent := if mesh.hasTangents then mesh.bitangents.getD i float3.zero
                    else float3.zero }
  let nch := min mesh.texChans.length NUM_MODEL_UVCHANNS
  let vert1 := if 0 < nch then { vert0 with tc0 := (mesh.texChans.getD 0 []).getD i ⟨0, 0⟩ }
               else vert0
  let vert2 := if 1 < nch then { vert1 with tc1 := (mesh.texChans.getD 1 []).getD i ⟨0, 0⟩ }
               else vert1
  let piece :=
    { piece with
        mins := float3.fmin piece.mins v
        maxs := float3.fmax piece.maxs v
        numTexCoordChannels := max piece.numTexCoordChannels nch }
  ({ piece with vertices := piece.vertices ++ [vert2] },
   mapping ++ [piece.vertices.length])

/-- The face loop of `CAssParser::LoadPieceGeometry` (lines 569-582):
faces that are not triangles are dropped; triangle indices are mapped
through the per-mesh vertex mapping into piece-local draw indices. -/
def loadMeshFaces (piece : SAssPiece) (mesh : aiMesh) (mapping : List Nat) :
    SAssPiece :=
  mesh.faces.foldl
    (fun p face =>
      if face.length = 3 then
        { p with vertexDrawIndices :=
            p.vertexDrawIndices ++ face.map (fun fi => mapping.getD fi 0) }
      else p)
    piece

/-- `CAssParser::LoadPieceGeometry` (lines 489-586): flatten every mesh
attached to the node into the piece's vertex/index buffers and set
`hasGeometryData` iff the final vertex list is non-empty. -/
def loadPieceGeometry (piece : SAssPiece) (meshIdxs : List Nat)
    (scene : List aiMesh) : SAssPiece :=
  let piece :=
    meshIdxs.foldl
      (fun p mi =>
        let mesh := scene.getD mi emptyMesh
        let vm := mesh.verts.enum.foldl (loadMeshVertex mesh) (p, [])
        loadMeshFaces vm.1 mesh vm.2)
      piece
  { piece with hasGeometryData := !piece.vertices.isEmpty }

/-- The root piece's name as read through `model->GetRootPiece()->name`
(the source asserts the root exists at this read). -/
def rootPieceName (model : S3DModel) : String :=
  match model.rootPiece with
  | some r => r.name
  | none => ""

mutual
/-- `CAssParser::LoadPiece` (lines 588-637).  `pinfo` is `none` for the
scene root and otherwise `(parent node's reported name, parent is the
tree root)`.  Returns the updated model and the created piece (`none`
when the marker resolver consumed it, mirroring the early `return NULL`).
The stored `rootPiece` snapshot is refreshed whenever the root piece
object has been further mutated (pointer aliasing, see the header
comment). -/
def loadPiece (ctx : AssCtx) (model : S3DModel) :
    aiNode → Option (String × Bool) → S3DModel × Option SAssPiece
  | .mk nodeName scaleDec transDec rotDec meshIdxs children, pinfo =>
    let isRoot := pinfo.isNone
    let model1 := { model with numPieces := model.numPieces + 1 }
    let piece0 := defaultPiece
    let nm := setPieceName (model1.pieceMap.map Prod.fst) nodeName isRoot
    let piece1 := { piece0 with name := nm }
    let pt := ctx.pieceTables nm
    let piece2 := loadPieceTransformations ctx piece1 isRoot pt scaleDec transDec rotDec
    let model2 := if isRoot then { model1 with rootPiece := some piece2 } else model1
    match setModelRadiusAndHeight model2 piece2 pt with
    | (model3, true) => (model3, none)
    | (model3, false) =>
      let piece3 := loadPieceGeometry piece2 meshIdxs ctx.scene
      let piece4 := setPieceParentName piece3 pt pinfo (rootPieceName model3)
      let model4 := if isRoot then { model3 with rootPiece := some piece4 } else model3
      let model5 := loadChildren ctx model4 children (some (nodeName, isRoot))
      ({ model5 with pieceMap := mapInsert model5.pieceMap piece4.name piece4 },
       some piece4)

/-- The child-recursion loop of `CAssParser::LoadPiece` (lines 631-633);
the recursive return values are discarded as in the source. -/
def loadChildren (ctx : AssCtx) (model : S3DModel) :
    List aiNode → Option (String × Bool) → S3DModel
  | [], _ => model
  | c :: cs, pinfo =>
    let r := loadPiece ctx model c pinfo
    loadChildren ctx r.1 cs pinfo
end

/-- The two resolvable log events of `CAssParser::BuildPieceHierarchy`:
a declared parent missing from the piece map (line 655) and a missing
root piece while attaching an orphan (line 668). -/
inductive HierError where
  | missingParent (parentName pieceName : String)
  | missingRoot (pieceName : String)
deriving DecidableEq, Repr

/-- The hierarchy pass's output: per-piece parent back-references (in
processing order), per-piece child sequences (in append order), and the
error log.  Pieces are identified by their `pieceMap` key. -/
structure HierOut where
  parents : List (String × Option String)
  children : List (String × List String)
  errors : List HierError
deriving DecidableEq

/-- `parent->children.push_back(piece)`: append `child` to the child
sequence of the entry keyed `parent`. -/
def appendChild (cs : List (String × List String)) (parent child : String) :
    List (String × List String) :=
  cs.map (fun e => if e.1 = parent then (e.1, e.2 ++ [child]) else e)

/-- One iteration of the `CAssParser::BuildPieceHierarchy` loop (lines
644-672) on the entry `e`.  The root piece is identified by its map key
(`piece == model->GetRootPiece()` in the source; equivalent whenever map
keys are the piece names).  A non-empty `parentName` is looked up via
`FindPiece`: found means attach (set back-reference, append to the
parent's children), missing means log and leave detached with a null
back-reference.  An empty `parentName` attaches the orphan to the root,
or logs a fatal-level error when there is no root. -/
def buildStep (entries : List (String × SAssPiece)) (rootName : Option String)
    (st : HierOut) (e : String × SAssPiece) : HierOut :=
  if some e.1 = rootName then st
  else if e.2.parentName ≠ "" then
    match findPiece entries e.2.parentName with
    | none =>
        { st with
            parents := st.parents ++ [(e.1, none)]
            errors := st.errors ++ [HierError.missingParent e.2.parentName e.1] }
    | some _ =>
        { st with
            parents := st.parents ++ [(e.1, some e.2.parentName)]
            children := appendChild st.children e.2.parentName e.1 }
  else
    match rootName with
    | none =>
        { st with
            parents := st.parents ++ [(e.1, none)]
            errors := st.errors ++ [HierError.missingRoot e.1] }
    | some rn =>
        { st with
            parents := st.parents ++ [(e.1, some rn)]
            children := appendChild st.children rn e.1 }

/-- `CAssParser::BuildPieceHierarchy` (lines 641-673): fold the loop body
over every piece-map entry, starting from empty child sequences. -/
def buildPieceHierarchy (entries : List (String × SAssPiece))
    (rootName : Option String) : HierOut :=
  entries.foldl (buildStep entries rootName)
    ⟨[], entries.map (fun e => (e.1, [])), []⟩

/-- The piece hierarchy fed to the bounds pass: a piece together with its
resolved child subtrees (the `children` vectors built by pass 2). -/
inductive PieceTree where
  | mk (piece : SAssPiece) (children : List PieceTree)

/-- The bounds pass's per-piece output: the piece, its computed global
offset, its box collision volume (size and center), and its annotated
children. -/
inductive DimTree where
  | mk (piece : SAssPiece) (goffset : float3) (cvolSize cvolCenter : float3)
       (children : List DimTree)

def DimTree.dimPiece : DimTree → SAssPiece
  | .mk p _ _ _ _ => p

def DimTree.dimGoffset : DimTree → float3
  | .mk _ g _ _ _ => g

def DimTree.dimChildren : DimTree → List DimTree
  | .mk _ _ _ _ cs => cs

mutual
/-- `CAssParser::CalculateModelDimensions` (lines 677-695).
`parentGoffset` stands for `piece->parent->goffset` (zero at the root
call), which the pre-order traversal has already computed; `mins`/`maxs`
is the model's running bound.  The piece's `goffset` is its local offset
transformed by its own scale-rotation matrix plus the parent's
`goffset`; the model bound is folded with `goffset + piece->mins` /
`goffset + piece->maxs`, and the piece receives a box collision volume
sized `maxs - mins` and centered at `(maxs + mins) / 2`. -/
def calculateModelDimensions (t : PieceTree) (parentGoffset mins maxs : float3) :
    DimTree × float3 × float3 :=
  match t with
  | .mk p cs =>
    let scaleRotMat := composeScaleRot p.bakedRotMatrix p.scales
    let g := scaleRotMat.mulVec p.offset + parentGoffset
    let mins1 := float3.fmin (g + p.mins) mins
    let maxs1 := float3.fmax (g + p.maxs) maxs
    let rest := calcDimsList cs g mins1 maxs1
    (DimTree.mk p g (p.maxs.sub p.mins) (float3.smul (1/2) (p.maxs + p.mins))
       rest.1,
     rest.2)

/-- The child loop of `CAssParser::CalculateModelDimensions` (lines
692-694), threading the model bounds left to right. -/
def calcDimsList (l : List PieceTree) (parentGoffset mins maxs : float3) :
    List DimTree × float3 × float3 :=
  match l with
  | [] => ([], mins, maxs)
  | c :: cs =>
    let r := calculateModelDimensions c parentGoffset mins maxs
    let rs := calcDimsList cs parentGoffset r.2.1 r.2.2
    (r.1 :: rs.1, rs.2)
end

/-- `CS3OTextureHandler::S3oTex` (textures as GL handles / sizes). -/
structure S3oTex where
  num : Int
  tex1 : Nat
  tex1SizeX : Nat
  tex1SizeY : Nat
  tex2 : Nat
  tex2SizeX : Nat
  tex2SizeY : Nat
deriving DecidableEq, Repr

/-- `CS3OTextureHandler::DoGetS3oTex` (`S3OTextureHandler.h` lines
38-43): `NULL` for a negative index or one at least the vector's size,
otherwise the stored entry - the element access carries its bounds
proof. -/
def doGetS3oTex (num : Int) (texs : List S3oTex) : Option S3oTex :=
  if h : num < 0 ∨ (texs.length : Int) ≤ num then none
  else some (texs.get ⟨num.toNat, by push_neg at h; omega⟩)

/-- The texture handler's state relevant to lookups. -/
structure CS3OTextureHandler where
  s3oTextures : List S3oTex

/-- `CS3OTextureHandler::GetS3oTex` (lines 46-48): delegates to
`DoGetS3oTex` on the handler's texture vector. -/
def getS3oTex (handler : CS3OTextureHandler) (num : Int) : Option S3oTex :=
  doGetS3oTex num handler.s3oTextures

theorem resolveCollision_spec (keys : List String) (base : String) :
    resolveCollision keys base ∉ keys ∧
    (base ∉ keys → resolveCollision keys base = base) ∧
    (base ∈ keys →
      ∃ i, resolveCollision keys base = base ++ intToString02 i ∧
        base ++ intToString02 i ∉ keys ∧
        ∀ j, j < i → base ++ intToString02 j ∈ keys) := by
  unfold resolveCollision
  by_cases h : base ∈ keys
  · rw [if_pos h]
    refine ⟨Nat.find_spec (freshSuffix_exists keys base), fun hc => absurd h hc, fun _ => ?_⟩
    refine ⟨Nat.find (freshSuffix_exists keys base), rfl,
      Nat.find_spec (freshSuffix_exists keys base), fun j hj => ?_⟩
    have := Nat.find_min (freshSuffix_exists keys base) hj
    simpa using this
  · rw [if_neg h]
    exact ⟨h, fun _ => rfl, fun hc => absurd hc h⟩

theorem decRepr_length_one (n : Nat) (h : n < 10) : (decRepr n).length = 1 := by
  by_cases h0 : n = 0
  · subst h0; decide
  · rw [decRepr, if_neg h0]
    show (((Nat.digits 10 n).reverse).map digitChar).length = 1
    rw [List.length_map, List.length_reverse, Nat.digits_len 10 n (by norm_num) h0,
      Nat.log_eq_zero_iff.mpr (Or.inl h)]

theorem intToString02_two_digits (m : Nat) (h : m < 100) :
    (intToString02 m).length = 2 := by
  by_cases h10 : m < 10
  · rw [intToString02, if_pos h10, String.length_append, decRepr_length_one m h10]
    decide
  · rw [intToString02, if_neg h10, decRepr, if_neg (by omega)]
    show (((Nat.digits 10 m).reverse).map digitChar).length = 2
    rw [List.length_map, List.length_reverse, Nat.digits_len 10 m (by norm_num) (by omega),
      @Nat.log_eq_of_pow_le_of_lt_pow 10 1 m (by omega) (by omega)]

/-- The base name `SetPieceName` starts from before collision handling:
the node's reported name, or the root/piece sentinel for empty names. -/
def setPieceNameBase (nodeName : String) (isRoot : Bool) : String :=
  if nodeName = "" then (if isRoot then "$$root$$" else "$$piece$$") else nodeName

/-- The loader context for concrete runs: no meshes, no metadata, and a
pose-rotation composer that keeps the baked matrix. -/
def trivCtx : AssCtx :=
  { scene := [], pieceTables := fun _ => emptyTable
    composeRotation := fun m _ => m }

/-- A scene whose root node `"A"` has a single child also reported as
`"A"`: the child is named while its ancestor's name is not yet in the
piece map, so both pieces resolve to `"A"` and the root's late map
insertion overwrites the child's entry. -/
def nodeAA : aiNode :=
  .mk "A" float3.ones float3.zero CMatrix33.identity []
    [aiNode.mk "A" float3.ones float3.zero CMatrix33.identity [] []]

/-- Concrete evaluation of the duplicate-name load: two pieces are
created (and never consumed), yet the final map holds the single key
`"A"` - the root's post-order insertion overwrote the child's entry -
and no suffixed `"A00"` entry exists. -/
theorem loadPiece_nodeAA_run :
    (loadPiece trivCtx initModel nodeAA none).1.numPieces = 2 ∧
    (loadPiece trivCtx initModel nodeAA none).1.pieceMap.map Prod.fst = ["A"] ∧
    findPiece (loadPiece trivCtx initModel nodeAA none).1.pieceMap "A00" = none := by
  refine ⟨?_, ?_, ?_⟩ <;>
    simp +decide [loadPiece, loadChildren, setPieceName, resolveCollision,
      loadPieceTransformations, scalesAfterOverrides, offsetAfterOverrides,
      applyIsotropy, setModelRadiusAndHeight, loadPieceGeometry,
      setPieceParentName, mapInsert, rootPieceName, findPiece, emptyTable,
      initModel, defaultPiece, trivCtx, nodeAA, float3.zero, float3.ones,
      CMatrix33.identity]

/-- C1 counterexample: loading a scene whose root node `"A"` has a child
also reported as `"A"` yields a "successful" load with `numPieces = 2`
but only one `pieceMap` entry (the child's entry was overwritten by the
root's later insertion), refuting `numPieces = |pieceMap|` and the
claim that every surviving piece occurs in the map. -/
theorem pieceMap_shadowing_cex :
    (loadPiece trivCtx initModel nodeAA none).1.numPieces = 2 ∧
    (loadPiece trivCtx initModel nodeAA none).1.pieceMap.length = 1 ∧
    (loadPiece trivCtx initModel nodeAA none).1.numPieces ≠
      ((loadPiece trivCtx initModel nodeAA none).1.pieceMap.length : Int) := by
  obtain ⟨h1, h2, h3⟩ := loadPiece_nodeAA_run
  have hlen : (loadPiece trivCtx initModel nodeAA none).1.pieceMap.length = 1 := by
    have := congrArg List.length h2
    simpa using this
  exact ⟨h1, hlen, by rw [h1, hlen]; decide⟩

/-- C8 counterexample: in the same duplicate-name load, the child is the
first duplicate of base name `"A"` yet receives no `"A00"` suffix (its
resolution ran while the pending ancestor `"A"` was not yet a map key),
so the model ends with two live pieces, a single key `"A"`, and no
suffixed entry - refuting the claim that the k-th duplicate receives a
numeric suffix and that no two live pieces share a name. -/
theorem setPieceName_pending_ancestor_cex :
    (loadPiece trivCtx initModel nodeAA none).1.pieceMap.map Prod.fst = ["A"] ∧
    findPiece (loadPiece trivCtx initModel nodeAA none).1.pieceMap "A00" = none ∧
    (loadPiece trivCtx initModel nodeAA none).1.numPieces = 2 := by
  obtain ⟨h1, h2, h3⟩ := loadPiece_nodeAA_run
  exact ⟨h2, h3, h1⟩

/-- A scene whose root node itself carries the height-marker name. -/
def nodeRootHeight : aiNode :=
  .mk "SpringHeight" float3.ones ⟨0, 42, 0⟩ CMatrix33.identity [] []

/-- C2 counterexample: when the *root* node is a marker, the load binds
`model->rootPiece` to the piece before the marker resolver deletes it,
so model state beyond the marker scalars and the piece counter does
change (the root binding goes from none to set, and dangles in the
source), refuting the claim for root marker nodes. -/
theorem marker_root_binds_rootPiece_cex :
    initModel.rootPiece = none ∧
    (loadPiece trivCtx initModel nodeRootHeight none).1.rootPiece ≠ none := by
  constructor
  · rfl
  · simp +decide [loadPiece, setPieceName, resolveCollision,
      loadPieceTransformations, scalesAfterOverrides, offsetAfterOverrides,
      applyIsotropy, setModelRadiusAndHeight, emptyTable, initModel,
      defaultPiece, trivCtx, nodeRootHeight, float3.zero, float3.ones,
      CMatrix33.identity]

/-- C10: `GetS3oTex` returns `NULL` exactly when the index is negative
or at least the texture vector's size, and otherwise returns the stored
entry at that index; the element access inside `DoGetS3oTex` carries a
bounds proof, so the vector is never accessed out of range. -/
theorem getS3oTex_bounds (handler : CS3OTextureHandler) (num : Int) :
    (num < 0 ∨ (handler.s3oTextures.length : Int) ≤ num →
      getS3oTex handler num = none) ∧
    (0 ≤ num → num < (handler.s3oTextures.length : Int) →
      getS3oTex handler num = handler.s3oTextures.get? num.toNat ∧
      (handler.s3oTextures.get? num.toNat).isSome = true) := by
  constructor
  · intro h
    rw [getS3oTex, doGetS3oTex, dif_pos h]
  · intro h1 h2
    have hn : ¬(num < 0 ∨ (handler.s3oTextures.length : Int) ≤ num) := by omega
    have hlt : num.toNat < handler.s3oTextures.length := by omega
    rw [getS3oTex, doGetS3oTex, dif_neg hn]
    rw [List.get?_eq_get hlt]
    exact ⟨rfl, rfl⟩

theorem getS3oTex_bounds_witness :
    ((0 : Int) ≤ 0 ∧ (0 : Int) < ((([⟨7, 1, 2, 3, 4, 5, 6⟩] : List S3oTex).length : Int))) ∧
    getS3oTex ⟨[⟨7, 1, 2, 3, 4, 5, 6⟩]⟩ 0 =
      ([⟨7, 1, 2, 3, 4, 5, 6⟩] : List S3oTex).get? (0 : Int).toNat :=
  ⟨⟨by decide, by decide⟩,
   ((getS3oTex_bounds ⟨[⟨7, 1, 2, 3, 4, 5, 6⟩]⟩ 0).2 (by decide) (by decide)).1⟩

/-- C9: whenever the scale components left by the override keys
(`scale`/`scalex`/`scaley`/`scalez` over the decomposed scale) are not
all equal, the piece's finalized `scales` is the isotropic vector built
from the X component. -/
theorem loadPieceTransformations_isotropic_scales (ctx : AssCtx) (piece : SAssPiece)
    (isRoot : Bool) (pt : LuaTable) (scaleDec transDec : float3) (rotDec : CMatrix33)
    (h : ¬((scalesAfterOverrides pt scaleDec).x = (scalesAfterOverrides pt scaleDec).y ∧
           (scalesAfterOverrides pt scaleDec).y = (scalesAfterOverrides pt scaleDec).z)) :
    (loadPieceTransformations ctx piece isRoot pt scaleDec transDec rotDec).scales =
      ⟨(scalesAfterOverrides pt scaleDec).x, (scalesAfterOverrides pt scaleDec).x,
       (scalesAfterOverrides pt scaleDec).x⟩ := by
  have hcond : (scalesAfterOverrides pt scaleDec).x ≠ (scalesAfterOverrides pt scaleDec).y ∨
      (scalesAfterOverrides pt scaleDec).y ≠ (scalesAfterOverrides pt scaleDec).z := by
    tauto
  simp only [loadPieceTransformations]
  rw [applyIsotropy, if_pos hcond]

/-- A metadata table reporting the anisotropic scale override (1, 2, 3). -/
def anisoTable : LuaTable :=
  { emptyTable with getFloat3 := fun k d => if k = "scale" then ⟨1, 2, 3⟩ else d }

theorem loadPieceTransformations_isotropic_scales_witness :
    (¬((scalesAfterOverrides anisoTable float3.ones).x =
         (scalesAfterOverrides anisoTable float3.ones).y ∧
       (scalesAfterOverrides anisoTable float3.ones).y =
         (scalesAfterOverrides anisoTable float3.ones).z)) ∧
    (loadPieceTransformations trivCtx defaultPiece false anisoTable float3.ones
        float3.zero CMatrix33.identity).scales =
      ⟨(scalesAfterOverrides anisoTable float3.ones).x,
       (scalesAfterOverrides anisoTable float3.ones).x,
       (scalesAfterOverrides anisoTable float3.ones).x⟩ :=
  ⟨by norm_num [scalesAfterOverrides, anisoTable, emptyTable, float3.ones],
   loadPieceTransformations_isotropic_scales _ _ _ _ _ _ _
     (by norm_num [scalesAfterOverrides, anisoTable, emptyTable, float3.ones])⟩

/-- C8 (amended): name resolution is deterministic against the current
piece map.  The resolved name never collides with an existing map key;
it is the base name (reported name, or the root/piece sentinel for empty
names) when that is free, and otherwise the base name extended with the
`"%02i"`-rendered suffix of the least index whose suffixed name is
unused (suffixes start at `"00"` and stay two digits below 100).  The
hypothesis records the source's stated precondition for the unnamed-root
early return: the root is the first piece created, so the map is still
empty.  (Uniqueness against pieces *not yet inserted* does not hold -
see the pending-ancestor counterexample.) -/
theorem setPieceName_spec (keys : List String) (nodeName : String) (isRoot : Bool)
    (hroot : nodeName = "" → isRoot = true → keys = []) :
    setPieceName keys nodeName isRoot ∉ keys ∧
    (setPieceNameBase nodeName isRoot ∉ keys →
      setPieceName keys nodeName isRoot = setPieceNameBase nodeName isRoot) ∧
    (setPieceNameBase nodeName isRoot ∈ keys →
      ∃ i, setPieceName keys nodeName isRoot =
             setPieceNameBase nodeName isRoot ++ intToString02 i ∧
        setPieceNameBase nodeName isRoot ++ intToString02 i ∉ keys ∧
        ∀ j, j < i → setPieceNameBase nodeName isRoot ++ intToString02 j ∈ keys) ∧
    intToString02 0 = "00" ∧
    (∀ m, m < 100 → (intToString02 m).length = 2) := by
  have hpad0 : intToString02 0 = "00" := by decide
  by_cases hempty : nodeName = ""
  · by_cases hr : isRoot = true
    · have hkeys : keys = [] := hroot hempty hr
      subst hkeys
      rw [setPieceName, if_pos hempty, if_pos hr, setPieceNameBase, if_pos hempty, if_pos hr]
      exact ⟨by simp, fun _ => rfl, by simp, hpad0, intToString02_two_digits⟩
    · have hr2 : isRoot = false := by revert hr; cases isRoot <;> simp
      subst hr2
      rw [setPieceName, if_pos hempty, setPieceNameBase, if_pos hempty]
      simp only [Bool.false_eq_true, if_false]
      obtain ⟨a, b, c⟩ := resolveCollision_spec keys "$$piece$$"
      exact ⟨a, b, c, hpad0, intToString02_two_digits⟩
  · rw [setPieceName, if_neg hempty, setPieceNameBase, if_neg hempty]
    obtain ⟨a, b, c⟩ := resolveCollision_spec keys nodeName
    exact ⟨a, b, c, hpad0, intToString02_two_digits⟩

theorem setPieceName_spec_witness :
    (("Turret" : String) = "" → (false : Bool) = true → (["Turret"] : List String) = []) ∧
    setPieceName ["Turret"] "Turret" false ∉ (["Turret"] : List String) :=
  ⟨by decide, (setPieceName_spec ["Turret"] "Turret" false (by decide)).1⟩

theorem loadPieceTransformations_name (ctx : AssCtx) (p : SAssPiece) (b : Bool)
    (pt : LuaTable) (s t : float3) (r : CMatrix33) :
    (loadPieceTransformations ctx p b pt s t r).name = p.name := rfl

theorem foldl_loadMeshVertex_name (mesh : aiMesh) (l : List (Nat × float3))
    (acc : SAssPiece × List Nat) :
    (l.foldl (loadMeshVertex mesh) acc).1.name = acc.1.name := by
  induction l generalizing acc with
  | nil => rfl
  | cons a l ih => rw [List.foldl_cons, ih]; rfl

theorem loadMeshFaces_name (p : SAssPiece) (mesh : aiMesh) (mapping : List Nat) :
    (loadMeshFaces p mesh mapping).name = p.name := by
  rw [loadMeshFaces]
  induction mesh.faces generalizing p with
  | nil => rfl
  | cons f fs ih =>
    rw [List.foldl_cons, ih]
    split <;> rfl

theorem loadPieceGeometry_name (p : SAssPiece) (mi : List Nat)
    (scene : List aiMesh) : (loadPieceGeometry p mi scene).name = p.name := by
  rw [loadPieceGeometry]
  show (mi.foldl _ p).name = p.name
  induction mi generalizing p with
  | nil => rfl
  | cons m ms ih =>
    rw [List.foldl_cons, ih, loadMeshFaces_name, foldl_loadMeshVertex_name]

theorem setPieceParentName_name (p : SAssPiece) (pt : LuaTable)
    (pinfo : Option (String × Bool)) (rn : String) :
    (setPieceParentName p pt pinfo rn).name = p.name := by
  rw [setPieceParentName.eq_def]
  split
  · rfl
  · cases pinfo with
    | none => rfl
    | some pi2 => dsimp only; split <;> rfl

theorem setModelRadiusAndHeight_state (m : S3DModel) (p : SAssPiece) (t : LuaTable) :
    (setModelRadiusAndHeight m p t).1.pieceMap = m.pieceMap ∧
    (setModelRadiusAndHeight m p t).1.rootPiece = m.rootPiece ∧
    (setModelRadiusAndHeight m p t).1.mins = m.mins ∧
    (setModelRadiusAndHeight m p t).1.maxs = m.maxs ∧
    ((setModelRadiusAndHeight m p t).2 = true →
      (setModelRadiusAndHeight m p t).1.numPieces = m.numPieces - 1) ∧
    ((setModelRadiusAndHeight m p t).2 = false →
      (setModelRadiusAndHeight m p t).1 = m) := by
  rw [setModelRadiusAndHeight]
  split_ifs <;> simp

theorem setModelRadiusAndHeight_false_name (m m2 : S3DModel) (p : SAssPiece)
    (t : LuaTable) (h : setModelRadiusAndHeight m p t = (m2, false)) :
    p.name ≠ "SpringHeight" ∧ p.name ≠ "SpringRadius" := by
  rw [setModelRadiusAndHeight] at h
  by_cases h1 : p.name = "SpringHeight"
  · rw [if_pos h1] at h
    have := congrArg Prod.snd h
    simp at this
  · rw [if_neg h1] at h
    by_cases h2 : p.name = "SpringRadius"
    · rw [if_pos h2] at h
      have := congrArg Prod.snd h
      simp at this
    · exact ⟨h1, h2⟩

theorem lookup_map_replace (es : List (String × SAssPiece)) (k mk2 : String)
    (v : SAssPiece) (h : mk2 ≠ k) :
    List.lookup mk2 (es.map (fun e => if e.1 = k then (k, v) else e)) =
      List.lookup mk2 es := by
  induction es with
  | nil => rfl
  | cons e es ih =>
    rcases e with ⟨ek, ev⟩
    rw [List.map_cons]
    by_cases hek : ek = k
    · subst hek
      simp only [if_pos rfl]
      have h1 : (mk2 == ek) = false := by simp [h]
      simp [List.lookup, h1, ih]
    · simp only [if_neg hek]
      cases hbe : (mk2 == ek) <;> simp [List.lookup, hbe, ih]

theorem lookup_append_single (es : List (String × SAssPiece)) (k mk2 : String)
    (v : SAssPiece) (h : mk2 ≠ k) :
    List.lookup mk2 (es ++ [(k, v)]) = List.lookup mk2 es := by
  induction es with
  | nil =>
    have h1 : (mk2 == k) = false := by simp [h]
    simp [List.lookup, h1]
  | cons e es ih =>
    rcases e with ⟨ek, ev⟩
    rw [List.cons_append]
    cases hbe : (mk2 == ek) <;> simp [List.lookup, hbe, ih]

theorem findPiece_mapInsert_ne (m : List (String × SAssPiece)) (k mk2 : String)
    (v : SAssPiece) (h : mk2 ≠ k) :
    findPiece (mapInsert m k v) mk2 = findPiece m mk2 := by
  rw [findPiece, findPiece, mapInsert]
  split
  · exact lookup_map_replace m k mk2 v h
  · exact lookup_append_single m k mk2 v h

theorem ite_pieceMap (c : Prop) [Decidable c] (a b : S3DModel) :
    (if c then a else b).pieceMap = if c then a.pieceMap else b.pieceMap :=
  apply_ite (fun m : S3DModel => m.pieceMap) c a b

mutual
def loadPiece_marker_absent : (n : aiNode) → ∀ (ctx : AssCtx) (model : S3DModel)
    (pinfo : Option (String × Bool)) (mk2 : String),
    mk2 = "SpringHeight" ∨ mk2 = "SpringRadius" →
    findPiece model.pieceMap mk2 = none →
    findPiece (loadPiece ctx model n pinfo).1.pieceMap mk2 = none
  | .mk nodeName sdec tdec rdec mi cs => fun ctx model pinfo mk2 hmk h => by
    simp only [loadPiece]
    split
    · next model3 heq =>
      dsimp only
      have hpm := congrArg (fun r : S3DModel × Bool => r.1.pieceMap) heq
      dsimp only at hpm
      rw [(setModelRadiusAndHeight_state _ _ _).1] at hpm
      rw [ite_pieceMap] at hpm
      dsimp only at hpm
      rw [ite_self] at hpm
      rw [← hpm]
      exact h
    · next model3 heq =>
      dsimp only
      rw [setPieceParentName_name, loadPieceGeometry_name, loadPieceTransformations_name]
      have hfalse := setModelRadiusAndHeight_false_name _ _ _ _ heq
      rw [loadPieceTransformations_name] at hfalse
      dsimp only at hfalse ⊢
      have hne : mk2 ≠ setPieceName (List.map Prod.fst model.pieceMap) nodeName pinfo.isNone := by
        rcases hmk with rfl | rfl
        · exact fun hc => hfalse.1 hc.symm
        · exact fun hc => hfalse.2 hc.symm
      rw [findPiece_mapInsert_ne _ _ _ _ hne]
      apply loadChildren_marker_absent cs ctx _ _ mk2 hmk
      have hfst := congrArg (fun r : S3DModel × Bool => r.1) heq
      have hsnd := congrArg (fun r : S3DModel × Bool => r.2) heq
      dsimp only at hfst hsnd
      have hm1 := (setModelRadiusAndHeight_state _ _ _).2.2.2.2.2 hsnd
      have hm3 : model3 = _ := hfst.symm.trans hm1
      rw [ite_pieceMap]
      dsimp only
      rw [ite_self, hm3]
      rw [ite_pieceMap]
      dsimp only
      rw [ite_self]
      exact h
def loadChildren_marker_absent : (cs : List aiNode) → ∀ (ctx : AssCtx) (model : S3DModel)
    (pinfo : Option (String × Bool)) (mk2 : String),
    mk2 = "SpringHeight" ∨ mk2 = "SpringRadius" →
    findPiece model.pieceMap mk2 = none →
    findPiece (loadChildren ctx model cs pinfo).pieceMap mk2 = none
  | [] => fun ctx model pinfo mk2 hmk h => by simpa [loadChildren] using h
  | c :: cs => fun ctx model pinfo mk2 hmk h => by
    simp only [loadChildren]
    exact loadChildren_marker_absent cs ctx _ pinfo mk2 hmk
      (loadPiece_marker_absent c ctx model pinfo mk2 hmk h)
end

/-- C2 (amended): for every *non-root* node whose resolved piece name is
consumed by the marker resolver, the visit extracts no geometry, resolves
no parent name and inserts nothing into the piece map (the map is
unchanged and the returned piece is `NULL`), leaves the piece counter net
unchanged, leaves the root binding and the model bounds untouched, and
never visits the node's children (the result does not depend on them).
Only the marker scalars (`height`/`radius`/`relMidPos`) may change.  (For
a root marker node the claim fails: the root binding also changes - see
the counterexample.) -/
theorem loadPiece_marker_discards_subtree (ctx : AssCtx) (model : S3DModel)
    (nodeName : String) (sdec tdec : float3) (rdec : CMatrix33) (mi : List Nat)
    (cs : List aiNode) (pinfo2 : String × Bool)
    (h : setPieceName (model.pieceMap.map Prod.fst) nodeName false = "SpringHeight" ∨
         setPieceName (model.pieceMap.map Prod.fst) nodeName false = "SpringRadius") :
    (loadPiece ctx model (.mk nodeName sdec tdec rdec mi cs) (some pinfo2)).2 = none ∧
    (loadPiece ctx model (.mk nodeName sdec tdec rdec mi cs) (some pinfo2)).1.pieceMap =
      model.pieceMap ∧
    (loadPiece ctx model (.mk nodeName sdec tdec rdec mi cs) (some pinfo2)).1.numPieces =
      model.numPieces ∧
    (loadPiece ctx model (.mk nodeName sdec tdec rdec mi cs) (some pinfo2)).1.rootPiece =
      model.rootPiece ∧
    (loadPiece ctx model (.mk nodeName sdec tdec rdec mi cs) (some pinfo2)).1.mins =
      model.mins ∧
    (loadPiece ctx model (.mk nodeName sdec tdec rdec mi cs) (some pinfo2)).1.maxs =
      model.maxs ∧
    loadPiece ctx model (.mk nodeName sdec tdec rdec mi cs) (some pinfo2) =
      loadPiece ctx model (.mk nodeName sdec tdec rdec mi []) (some pinfo2) := by
  rcases h with h | h <;>
    simp +decide [loadPiece, Option.isNone, h, setModelRadiusAndHeight,
      loadPieceTransformations_name] <;>
    split_ifs <;> simp

/-- C3: for a node whose resolved name is `"SpringHeight"`: when the
piece's metadata sub-table has no `height` key, the model height becomes
the resolved offset's Y component; in every case the piece count is net
unchanged by the visit, the piece is released (`NULL` returned), the map
is unchanged, and - for any load that never had a `"SpringHeight"` key -
`FindPiece("SpringHeight")` stays `NULL` after the whole load. -/
theorem springHeight_marker (ctx : AssCtx) (model : S3DModel)
    (nodeName : String) (sdec tdec : float3) (rdec : CMatrix33) (mi : List Nat)
    (cs : List aiNode) (pinfo : Option (String × Bool))
    (h : setPieceName (model.pieceMap.map Prod.fst) nodeName pinfo.isNone =
      "SpringHeight") :
    ((ctx.pieceTables "SpringHeight").keyExists "height" = false →
      (loadPiece ctx model (.mk nodeName sdec tdec rdec mi cs) pinfo).1.height =
        (loadPieceTransformations ctx { defaultPiece with name := "SpringHeight" }
          pinfo.isNone (ctx.pieceTables "SpringHeight") sdec tdec rdec).offset.y) ∧
    (loadPiece ctx model (.mk nodeName sdec tdec rdec mi cs) pinfo).1.numPieces =
      model.numPieces ∧
    (loadPiece ctx model (.mk nodeName sdec tdec rdec mi cs) pinfo).2 = none ∧
    (loadPiece ctx model (.mk nodeName sdec tdec rdec mi cs) pinfo).1.pieceMap =
      model.pieceMap ∧
    (∀ (n2 : aiNode) (pinfo2 : Option (String × Bool)) (m2 : S3DModel),
      findPiece m2.pieceMap "SpringHeight" = none →
      findPiece (loadPiece ctx m2 n2 pinfo2).1.pieceMap "SpringHeight" = none) := by
  refine ⟨?_, ?_, ?_, ?_,
    fun n2 pinfo2 m2 hm2 =>
      loadPiece_marker_absent n2 ctx m2 pinfo2 "SpringHeight" (Or.inl rfl) hm2⟩ <;>
    cases pinfo <;>
    simp only [Option.isNone] at h ⊢ <;>
    simp +decide [loadPiece, Option.isNone, h, setModelRadiusAndHeight,
      loadPieceTransformations_name] <;>
    split_ifs <;> simp_all

/-- C4: for a node whose resolved name is `"SpringRadius"`: without a
`midpos` key, `relMidPos` becomes the resolved offset transformed by the
piece's own scale-rotation matrix (translation excluded); without a
`radius` key, the radius becomes the piece's scalar scale factor
(`scales.x`, isotropic after C9); the piece is consumed - count net
unchanged, released, map unchanged - and `FindPiece("SpringRadius")`
stays `NULL` for any load that never had such a key. -/
theorem springRadius_marker (ctx : AssCtx) (model : S3DModel)
    (nodeName : String) (sdec tdec : float3) (rdec : CMatrix33) (mi : List Nat)
    (cs : List aiNode) (pinfo : Option (String × Bool))
    (h : setPieceName (model.pieceMap.map Prod.fst) nodeName pinfo.isNone =
      "SpringRadius") :
    ((ctx.pieceTables "SpringRadius").keyExists "midpos" = false →
      (loadPiece ctx model (.mk nodeName sdec tdec rdec mi cs) pinfo).1.relMidPos =
        (composeScaleRot
          (loadPieceTransformations ctx { defaultPiece with name := "SpringRadius" }
            pinfo.isNone (ctx.pieceTables "SpringRadius") sdec tdec rdec).bakedRotMatrix
          (loadPieceTransformations ctx { defaultPiece with name := "SpringRadius" }
            pinfo.isNone (ctx.pieceTables "SpringRadius") sdec tdec rdec).scales).mulVec
          (loadPieceTransformations ctx { defaultPiece with name := "SpringRadius" }
            pinfo.isNone (ctx.pieceTables "SpringRadius") sdec tdec rdec).offset) ∧
    ((ctx.pieceTables "SpringRadius").keyExists "radius" = false →
      (loadPiece ctx model (.mk nodeName sdec tdec rdec mi cs) pinfo).1.radius =
        (loadPieceTransformations ctx { defaultPiece with name := "SpringRadius" }
          pinfo.isNone (ctx.pieceTables "SpringRadius") sdec tdec rdec).scales.x) ∧
    (loadPiece ctx model (.mk nodeName sdec tdec rdec mi cs) pinfo).1.numPieces =
      model.numPieces ∧
    (loadPiece ctx model (.mk nodeName sdec tdec rdec mi cs) pinfo).2 = none ∧
    (loadPiece ctx model (.mk nodeName sdec tdec rdec mi cs) pinfo).1.pieceMap =
      model.pieceMap ∧
    (∀ (n2 : aiNode) (pinfo2 : Option (String × Bool)) (m2 : S3DModel),
      findPiece m2.pieceMap "SpringRadius" = none →
      findPiece (loadPiece ctx m2 n2 pinfo2).1.pieceMap "SpringRadius" = none) := by
  refine ⟨?_, ?_, ?_, ?_, ?_,
    fun n2 pinfo2 m2 hm2 =>
      loadPiece_marker_absent n2 ctx m2 pinfo2 "SpringRadius" (Or.inr rfl) hm2⟩ <;>
    cases pinfo <;>
    simp only [Option.isNone] at h ⊢ <;>
    simp +decide [loadPiece, Option.isNone, h, setModelRadiusAndHeight,
      loadPieceTransformations_name] <;>
    split_ifs <;> simp_all

theorem loadPiece_marker_discards_subtree_witness :
    (setPieceName (initModel.pieceMap.map Prod.fst) "SpringHeight" false =
        "SpringHeight" ∨
     setPieceName (initModel.pieceMap.map Prod.fst) "SpringHeight" false =
        "SpringRadius") ∧
    (loadPiece trivCtx initModel
        (.mk "SpringHeight" float3.ones float3.zero CMatrix33.identity []
          [aiNode.mk "lost" float3.ones float3.zero CMatrix33.identity [] []])
        (some ("R", true))).1.pieceMap = initModel.pieceMap :=
  ⟨Or.inl (by simp [setPieceName, resolveCollision, initModel]),
   (loadPiece_marker_discards_subtree trivCtx initModel "SpringHeight" float3.ones
      float3.zero CMatrix33.identity []
      [aiNode.mk "lost" float3.ones float3.zero CMatrix33.identity [] []]
      ("R", true)
      (Or.inl (by simp [setPieceName, resolveCollision, initModel]))).2.1⟩

theorem springHeight_marker_witness :
    (setPieceName (initModel.pieceMap.map Prod.fst) "SpringHeight"
        (some ("R", true) : Option (String × Bool)).isNone = "SpringHeight") ∧
    ((trivCtx.pieceTables "SpringHeight").keyExists "height" = false →
      (loadPiece trivCtx initModel
          (.mk "SpringHeight" float3.ones ⟨0, 42, 0⟩ CMatrix33.identity [] [])
          (some ("R", true))).1.height =
        (loadPieceTransformations trivCtx { defaultPiece with name := "SpringHeight" }
          (some ("R", true) : Option (String × Bool)).isNone
          (trivCtx.pieceTables "SpringHeight") float3.ones ⟨0, 42, 0⟩
          CMatrix33.identity).offset.y) :=
  ⟨by simp [setPieceName, resolveCollision, initModel],
   (springHeight_marker trivCtx initModel "SpringHeight" float3.ones ⟨0, 42, 0⟩
      CMatrix33.identity [] [] (some ("R", true))
      (by simp [setPieceName, resolveCollision, initModel])).1⟩

theorem springRadius_marker_witness :
    (setPieceName (initModel.pieceMap.map Prod.fst) "SpringRadius"
        (some ("R", true) : Option (String × Bool)).isNone = "SpringRadius") ∧
    ((trivCtx.pieceTables "SpringRadius").keyExists "radius" = false →
      (loadPiece trivCtx initModel
          (.mk "SpringRadius" ⟨3, 3, 3⟩ float3.zero CMatrix33.identity [] [])
          (some ("R", true))).1.radius =
        (loadPieceTransformations trivCtx { defaultPiece with name := "SpringRadius" }
          (some ("R", true) : Option (String × Bool)).isNone
          (trivCtx.pieceTables "SpringRadius") ⟨3, 3, 3⟩ float3.zero
          CMatrix33.identity).scales.x) :=
  ⟨by simp [setPieceName, resolveCollision, initModel],
   (springRadius_marker trivCtx initModel "SpringRadius" ⟨3, 3, 3⟩ float3.zero
      CMatrix33.identity [] [] (some ("R", true))
      (by simp [setPieceName, resolveCollision, initModel])).2.1⟩

mutual
/-- Per piece of an annotated tree, the bound contribution
`goffset + piece.mins` (pre-order). -/
def dimMinContribs : DimTree → List float3
  | .mk p g _ _ cs => (g + p.mins) :: dimMinContribsList cs
def dimMinContribsList : List DimTree → List float3
  | [] => []
  | c :: cs => dimMinContribs c ++ dimMinContribsList cs
end

mutual
/-- Per piece of an annotated tree, the bound contribution
`goffset + piece.maxs` (pre-order). -/
def dimMaxContribs : DimTree → List float3
  | .mk p g _ _ cs => (g + p.maxs) :: dimMaxContribsList cs
def dimMaxContribsList : List DimTree → List float3
  | [] => []
  | c :: cs => dimMaxContribs c ++ dimMaxContribsList cs
end

/-- Fold of `std::min` updates into a running bound, new value first as
in `model->mins = std::min(goffset + piece->mins, model->mins)`. -/
def foldMins (m : float3) (l : List float3) : float3 :=
  l.foldl (fun acc c => float3.fmin c acc) m

def foldMaxs (m : float3) (l : List float3) : float3 :=
  l.foldl (fun acc c => float3.fmax c acc) m

/-- Component-wise minimum over a non-empty list (zero for empty). -/
def listMins : List float3 → float3
  | [] => float3.zero
  | c :: cs => foldMins c cs

def listMaxs : List float3 → float3
  | [] => float3.zero
  | c :: cs => foldMaxs c cs

theorem fmin_assoc (a b c : float3) :
    float3.fmin (float3.fmin a b) c = float3.fmin a (float3.fmin b c) := by
  simp [float3.fmin, min_assoc]

theorem fmax_assoc (a b c : float3) :
    float3.fmax (float3.fmax a b) c = float3.fmax a (float3.fmax b c) := by
  simp [float3.fmax, max_assoc]

theorem foldMins_append (m : float3) (l1 l2 : List float3) :
    foldMins m (l1 ++ l2) = foldMins (foldMins m l1) l2 :=
  List.foldl_append _ _ _ _

theorem foldMaxs_append (m : float3) (l1 l2 : List float3) :
    foldMaxs m (l1 ++ l2) = foldMaxs (foldMaxs m l1) l2 :=
  List.foldl_append _ _ _ _

theorem foldMins_fmin (l : List float3) : ∀ (a b : float3),
    foldMins (float3.fmin a b) l = float3.fmin (foldMins a l) b := by
  induction l with
  | nil => intro a b; rfl
  | cons c l ih =>
    intro a b
    show foldMins (float3.fmin c (float3.fmin a b)) l =
      float3.fmin (foldMins (float3.fmin c a) l) b
    rw [← fmin_assoc, ih]

theorem foldMaxs_fmax (l : List float3) : ∀ (a b : float3),
    foldMaxs (float3.fmax a b) l = float3.fmax (foldMaxs a l) b := by
  induction l with
  | nil => intro a b; rfl
  | cons c l ih =>
    intro a b
    show foldMaxs (float3.fmax c (float3.fmax a b)) l =
      float3.fmax (foldMaxs (float3.fmax c a) l) b
    rw [← fmax_assoc, ih]

mutual
/-- The bounds pass computes exactly the fold of each visited piece's
`goffset + mins` / `goffset + maxs` into the incoming running bound. -/
def calcDims_fold : (t : PieceTree) → ∀ (pg m M : float3),
    (calculateModelDimensions t pg m M).2.1 =
      foldMins m (dimMinContribs (calculateModelDimensions t pg m M).1) ∧
    (calculateModelDimensions t pg m M).2.2 =
      foldMaxs M (dimMaxContribs (calculateModelDimensions t pg m M).1)
  | .mk p cs => fun pg m M => by
    simp only [calculateModelDimensions, dimMinContribs, dimMaxContribs]
    exact calcDimsList_fold cs _ _ _
def calcDimsList_fold : (l : List PieceTree) → ∀ (pg m M : float3),
    (calcDimsList l pg m M).2.1 =
      foldMins m (dimMinContribsList (calcDimsList l pg m M).1) ∧
    (calcDimsList l pg m M).2.2 =
      foldMaxs M (dimMaxContribsList (calcDimsList l pg m M).1)
  | [] => fun pg m M => by
    simp [calcDimsList, dimMinContribsList, dimMaxContribsList, foldMins, foldMaxs]
  | c :: cs => fun pg m M => by
    simp only [calcDimsList, dimMinContribsList, dimMaxContribsList]
    have h1 := calcDims_fold c pg m M
    have h2 := calcDimsList_fold cs pg (calculateModelDimensions c pg m M).2.1
      (calculateModelDimensions c pg m M).2.2
    rw [foldMins_append, foldMaxs_append, ← h1.1, ← h1.2]
    exact h2
end

theorem fmin_eq_of_fle (a b : float3) (h : float3.fle a b) :
    float3.fmin a b = a := by
  obtain ⟨h1, h2, h3⟩ := h
  simp [float3.fmin, min_eq_left h1, min_eq_left h2, min_eq_left h3]

theorem fmax_eq_of_fle (a b : float3) (h : float3.fle b a) :
    float3.fmax a b = a := by
  obtain ⟨h1, h2, h3⟩ := h
  simp [float3.fmax, max_eq_left h1, max_eq_left h2, max_eq_left h3]

/-- C5: after the bounds pass from the root (zero parent offset), the
model bounds are the component-wise minimum / maximum over every visited
piece of `goffset + piece.mins` / `goffset + piece.maxs`, provided the
incoming running bounds (the model's sentinel extents) dominate the true
extrema. -/
theorem calculateModelDimensions_bounds (t : PieceTree) (m0 M0 : float3)
    (hm : float3.fle
      (listMins (dimMinContribs (calculateModelDimensions t float3.zero m0 M0).1)) m0)
    (hM : float3.fle M0
      (listMaxs (dimMaxContribs (calculateModelDimensions t float3.zero m0 M0).1))) :
    (calculateModelDimensions t float3.zero m0 M0).2.1 =
      listMins (dimMinContribs (calculateModelDimensions t float3.zero m0 M0).1) ∧
    (calculateModelDimensions t float3.zero m0 M0).2.2 =
      listMaxs (dimMaxContribs (calculateModelDimensions t float3.zero m0 M0).1) := by
  obtain ⟨h1, h2⟩ := calcDims_fold t float3.zero m0 M0
  rcases t with ⟨p, cs⟩
  simp only [calculateModelDimensions, dimMinContribs, dimMaxContribs] at h1 h2 hm hM ⊢
  constructor
  · rw [h1]
    show foldMins (float3.fmin _ m0) _ = _
    rw [foldMins_fmin]
    rw [listMins] at hm ⊢
    exact fmin_eq_of_fle _ _ hm
  · rw [h2]
    show foldMaxs (float3.fmax _ M0) _ = _
    rw [foldMaxs_fmax]
    rw [listMaxs] at hM ⊢
    exact fmax_eq_of_fle _ _ hM

theorem float3.add_def (a b : float3) :
    a + b = ⟨a.x + b.x, a.y + b.y, a.z + b.z⟩ := rfl

/-- A geometry-carrying piece for concrete bounds runs. -/
def cubePiece : SAssPiece :=
  { defaultPiece with mins := ⟨-1, -1, -1⟩, maxs := ⟨1, 1, 1⟩ }

theorem calculateModelDimensions_bounds_witness :
    (float3.fle
      (listMins (dimMinContribs (calculateModelDimensions (.mk cubePiece [])
        float3.zero ⟨10000, 10000, 10000⟩ ⟨-10000, -10000, -10000⟩).1))
      ⟨10000, 10000, 10000⟩) ∧
    (calculateModelDimensions (.mk cubePiece []) float3.zero
        ⟨10000, 10000, 10000⟩ ⟨-10000, -10000, -10000⟩).2.1 =
      listMins (dimMinContribs (calculateModelDimensions (.mk cubePiece [])
        float3.zero ⟨10000, 10000, 10000⟩ ⟨-10000, -10000, -10000⟩).1) :=
  ⟨by norm_num [calculateModelDimensions, calcDimsList, dimMinContribs,
      dimMinContribsList, listMins, foldMins, composeScaleRot, CMatrix33.mulVec,
      float3.smul, float3.fle, float3.add_def, float3.zero, float3.ones,
      cubePiece, defaultPiece, CMatrix33.identity],
   (calculateModelDimensions_bounds (.mk cubePiece []) ⟨10000, 10000, 10000⟩
      ⟨-10000, -10000, -10000⟩
      (by norm_num [calculateModelDimensions, calcDimsList, dimMinContribs,
        dimMinContribsList, listMins, foldMins, composeScaleRot, CMatrix33.mulVec,
        float3.smul, float3.fle, float3.add_def, float3.zero, float3.ones,
        cubePiece, defaultPiece, CMatrix33.identity])
      (by norm_num [calculateModelDimensions, calcDimsList, dimMaxContribs,
        dimMaxContribsList, listMaxs, foldMaxs, composeScaleRot, CMatrix33.mulVec,
        float3.smul, float3.fle, float3.add_def, float3.zero, float3.ones,
        cubePiece, defaultPiece, CMatrix33.identity])).1⟩

mutual
/-- The `goffset` recurrence along an annotated tree: with `acc` the
parent's computed global offset (zero at the root), every piece's
`goffset` is its local offset transformed by its own scale-rotation
matrix plus `acc`, i.e. unrolled root-to-leaf, the sum of the
transformed local offsets over its ancestor chain including itself. -/
def goffsetOk : float3 → DimTree → Prop
  | acc, .mk p g _ _ cs =>
      g = (composeScaleRot p.bakedRotMatrix p.scales).mulVec p.offset + acc ∧
      goffsetOkList g cs
def goffsetOkList : float3 → List DimTree → Prop
  | _, [] => True
  | acc, c :: cs => goffsetOk acc c ∧ goffsetOkList acc cs
end

mutual
def calcDims_goffset_aux : (t : PieceTree) → ∀ (pg m M : float3),
    goffsetOk pg (calculateModelDimensions t pg m M).1
  | .mk p cs => fun pg m M => by
    simp only [calculateModelDimensions, goffsetOk]
    exact ⟨trivial, calcDimsList_goffset_aux cs _ _ _⟩
def calcDimsList_goffset_aux : (l : List PieceTree) → ∀ (pg m M : float3),
    goffsetOkList pg (calcDimsList l pg m M).1
  | [] => fun pg m M => by simp [calcDimsList, goffsetOkList]
  | c :: cs => fun pg m M => by
    simp only [calcDimsList, goffsetOkList]
    exact ⟨calcDims_goffset_aux c pg m M, calcDimsList_goffset_aux cs pg _ _⟩
end

/-- C6: the bounds pass started at the root (null parent, zero offset)
assigns every piece a `goffset` equal to its own scale-rotation-
transformed local offset plus its parent's `goffset` (zero at the root),
hence the root-to-leaf sum of transformed local offsets. -/
theorem calculateModelDimensions_goffset (t : PieceTree) (m M : float3) :
    goffsetOk float3.zero (calculateModelDimensions t float3.zero m M).1 :=
  calcDims_goffset_aux t float3.zero m M

/-- The parent back-reference `BuildPieceHierarchy` assigns to an entry:
skipped for the root, the declared parent when found (`NULL` when
missing), and the root (or `NULL` plus a fatal log) for orphans. -/
def parentDecision (entries : List (String × SAssPiece)) (rootName : Option String)
    (e : String × SAssPiece) : Option (String × Option String) :=
  if some e.1 = rootName then none
  else if e.2.parentName ≠ "" then
    some (e.1, (findPiece entries e.2.parentName).map (fun _ => e.2.parentName))
  else some (e.1, rootName)

/-- The log entry (if any) the loop body emits for an entry. -/
def errorDecision (entries : List (String × SAssPiece)) (rootName : Option String)
    (e : String × SAssPiece) : Option HierError :=
  if some e.1 = rootName then none
  else if e.2.parentName ≠ "" then
    match findPiece entries e.2.parentName with
    | none => some (HierError.missingParent e.2.parentName e.1)
    | some _ => none
  else
    match rootName with
    | none => some (HierError.missingRoot e.1)
    | some _ => none

/-- The child-sequence key (if any) an entry is appended to: its found
declared parent, or the root for orphans. -/
def attachedTo (entries : List (String × SAssPiece)) (rootName : Option String)
    (e : String × SAssPiece) : Option String :=
  if some e.1 = rootName then none
  else if e.2.parentName ≠ "" then
    match findPiece entries e.2.parentName with
    | none => none
    | some _ => some e.2.parentName
  else rootName

/-- The children an entry list contributes to the sequence keyed `k`. -/
def childContribs (entries : List (String × SAssPiece)) (rootName : Option String)
    (es : List (String × SAssPiece)) (k : String) : List String :=
  (es.filter (fun e => attachedTo entries rootName e = some k)).map Prod.fst

theorem foldl_buildStep_parents (entries : List (String × SAssPiece))
    (rootName : Option String) (es : List (String × SAssPiece)) :
    ∀ st0 : HierOut,
    (es.foldl (buildStep entries rootName) st0).parents =
      st0.parents ++ es.filterMap (parentDecision entries rootName) := by
  induction es with
  | nil => intro st0; simp
  | cons e es ih =>
    intro st0
    rw [List.foldl_cons, ih]
    rw [List.filterMap_cons]
    rw [buildStep.eq_def, parentDecision]
    by_cases h1 : some e.1 = rootName
    · rw [if_pos h1, if_pos h1]
    · rw [if_neg h1, if_neg h1]
      by_cases h2 : e.2.parentName ≠ ""
      · rw [if_pos h2, if_pos h2]
        cases hf : findPiece entries e.2.parentName <;> simp [hf]
      · rw [if_neg h2, if_neg h2]
        cases rootName <;> simp

theorem foldl_buildStep_errors (entries : List (String × SAssPiece))
    (rootName : Option String) (es : List (String × SAssPiece)) :
    ∀ st0 : HierOut,
    (es.foldl (buildStep entries rootName) st0).errors =
      st0.errors ++ es.filterMap (errorDecision entries rootName) := by
  induction es with
  | nil => intro st0; simp
  | cons e es ih =>
    intro st0
    rw [List.foldl_cons, ih]
    rw [List.filterMap_cons]
    rw [buildStep.eq_def, errorDecision.eq_def]
    by_cases h1 : some e.1 = rootName
    · rw [if_pos h1, if_pos h1]
    · rw [if_neg h1, if_neg h1]
      by_cases h2 : e.2.parentName ≠ ""
      · rw [if_pos h2, if_pos h2]
        cases hf : findPiece entries e.2.parentName <;> simp [hf]
      · rw [if_neg h2, if_neg h2]
        cases rootName <;> simp

theorem lookup_appendChild (cs : List (String × List String)) (p c k : String) :
    List.lookup k (appendChild cs p c) =
      if k = p then (List.lookup k cs).map (fun l => l ++ [c])
      else List.lookup k cs := by
  induction cs with
  | nil =>
    show (List.lookup k [] : Option (List String)) = _
    split <;> rfl
  | cons e es ih =>
    rcases e with ⟨ek, l⟩
    simp only [appendChild, List.map_cons] at ih ⊢
    by_cases hek : ek = p
    · rw [if_pos hek]
      by_cases hk : k = ek
      · subst hk
        subst hek
        simp [List.lookup]
      · have hbe : (k == ek) = false := by simp [hk]
        subst hek
        have hkp : k ≠ ek := hk
        simp [List.lookup, hbe, hkp, ih]
    · rw [if_neg hek]
      by_cases hk : k = ek
      · subst hk
        have hbe : (k == k) = true := by simp
        simp [List.lookup, hbe, hek]
      · have hbe : (k == ek) = false := by simp [hk]
        simp [List.lookup, hbe, ih]

theorem foldl_buildStep_children (entries : List (String × SAssPiece))
    (rootName : Option String) (es : List (String × SAssPiece)) :
    ∀ (st0 : HierOut) (k : String),
    List.lookup k (es.foldl (buildStep entries rootName) st0).children =
      (List.lookup k st0.children).map
        (fun l => l ++ childContribs entries rootName es k) := by
  induction es with
  | nil =>
    intro st0 k
    simp only [List.foldl_nil, childContribs, List.filter_nil, List.map_nil,
      List.append_nil]
    cases List.lookup k st0.children <;> rfl
  | cons e es ih =>
    intro st0 k
    rw [List.foldl_cons, ih]
    simp only [childContribs]
    rw [List.filter_cons]
    rw [buildStep.eq_def]
    by_cases h1 : some e.1 = rootName
    · rw [if_pos h1]
      have hat : attachedTo entries rootName e = none := by
        rw [attachedTo, if_pos h1]
      rw [hat]
      have hd : (decide ((none : Option String) = some k)) = false := by simp
      rw [hd]
      simp only [Bool.false_eq_true, if_false]
    · rw [if_neg h1]
      by_cases h2 : e.2.parentName ≠ ""
      · rw [if_pos h2]
        have hat : attachedTo entries rootName e =
            match findPiece entries e.2.parentName with
            | none => none
            | some _ => some e.2.parentName := by
          rw [attachedTo, if_neg h1, if_pos h2]
        cases hf : findPiece entries e.2.parentName with
        | none =>
          rw [hf] at hat
          rw [hat]
          have hd : (decide ((none : Option String) = some k)) = false := by simp
          rw [hd]
          simp only [Bool.false_eq_true, if_false]
        | some q =>
          rw [hf] at hat
          rw [hat]
          dsimp only
          rw [lookup_appendChild]
          by_cases hk : k = e.2.parentName
          · have hdec : (decide (some e.2.parentName = some k)) = true := by
              simp [hk]
            rw [hdec, if_pos hk]
            cases List.lookup k st0.children <;> simp
          · have hdec : (decide (some e.2.parentName = some k)) = false := by
              simp [Ne.symm hk]
            rw [hdec, if_neg hk]
            simp only [Bool.false_eq_true, if_false]
      · rw [if_neg h2]
        have hat : attachedTo entries rootName e = rootName := by
          rw [attachedTo, if_neg h1, if_neg h2]
        cases hr : rootName with
        | none =>
          rw [hr] at hat
          rw [hat]
          have hd : (decide ((none : Option String) = some k)) = false := by simp
          rw [hd]
          simp only [Bool.false_eq_true, if_false]
        | some rn =>
          rw [hr] at hat
          rw [hat]
          dsimp only
          rw [lookup_appendChild]
          by_cases hk : k = rn
          · have hdec : (decide (some rn = some k)) = true := by simp [hk]
            rw [hdec, if_pos hk]
            cases List.lookup k st0.children <;> simp
          · have hdec : (decide (some rn = some k)) = false := by
              simp [Ne.symm hk]
            rw [hdec, if_neg hk]
            simp only [Bool.false_eq_true, if_false]

theorem lookup_eq_none_of_keys {β : Type} (l : List (String × β)) (k : String)
    (h : ∀ x ∈ l, x.1 ≠ k) : List.lookup k l = none := by
  induction l with
  | nil => rfl
  | cons e es ih =>
    have h1 : e.1 ≠ k := h e (List.mem_cons_self e es)
    have hbe : (k == e.1) = false := by simp [Ne.symm h1]
    simp only [List.lookup, hbe]
    exact ih (fun x hx => h x (List.mem_cons_of_mem e hx))

theorem lookup_filterMap_keyed {β : Type}
    (es : List (String × SAssPiece))
    (f : (String × SAssPiece) → Option (String × β))
    (hf : ∀ e x, f e = some x → x.1 = e.1)
    (hnd : (es.map Prod.fst).Nodup) (nm : String) (p : SAssPiece)
    (he : (nm, p) ∈ es) :
    List.lookup nm (es.filterMap f) = (f (nm, p)).map Prod.snd := by
  induction es with
  | nil => cases he
  | cons e es ih =>
    have hnd3 : (e.1 :: es.map Prod.fst).Nodup := by simpa using hnd
    have hnd2 := List.nodup_cons.mp hnd3
    rcases List.mem_cons.mp he with heq | hmem
    · subst heq
      rw [List.filterMap_cons]
      cases hfe : f (nm, p) with
      | none =>
        rw [Option.map_none']
        apply lookup_eq_none_of_keys
        intro x hx
        obtain ⟨e2, he2, hfe2⟩ := List.mem_filterMap.mp hx
        rw [hf e2 x hfe2]
        intro hc
        have hmm := List.mem_map_of_mem Prod.fst he2
        rw [hc] at hmm
        exact hnd2.1 hmm
      | some x =>
        have hx1 : x.1 = nm := hf _ _ hfe
        have hbe : (nm == x.1) = true := by simp [hx1]
        simp [List.lookup, hbe, hfe]
    · have h1 : e.1 ≠ nm := by
        intro hc
        exact hnd2.1 (hc ▸ List.mem_map_of_mem Prod.fst hmem)
      rw [List.filterMap_cons]
      cases hfe : f e with
      | none => exact ih hnd2.2 hmem
      | some x =>
        have hx1 : x.1 = e.1 := hf _ _ hfe
        have hbe : (nm == x.1) = false := by simp [hx1, Ne.symm h1]
        simp [List.lookup, hbe]
        exact ih hnd2.2 hmem

theorem lookup_map_const (es : List (String × SAssPiece)) (k : String) :
    List.lookup k (es.map (fun e => (e.1, ([] : List String)))) =
      if k ∈ es.map Prod.fst then some [] else none := by
  induction es with
  | nil => rfl
  | cons e es ih =>
    rw [List.map_cons]
    by_cases hk : k = e.1
    · have hbe : (k == e.1) = true := by simp [hk]
      simp [List.lookup, hbe, hk]
    · have hbe : (k == e.1) = false := by simp [hk]
      have hmem : (k ∈ e.1 :: List.map Prod.fst es) ↔ k ∈ List.map Prod.fst es := by
        simp [hk]
      simp only [List.lookup, hbe, ih]
      exact (if_congr hmem rfl rfl).symm

theorem childContribs_subset (entries : List (String × SAssPiece))
    (rootName : Option String) (es : List (String × SAssPiece)) (k x : String)
    (hx : x ∈ childContribs entries rootName es k) : x ∈ es.map Prod.fst := by
  obtain ⟨e, he, rfl⟩ := List.mem_map.mp hx
  exact List.mem_map_of_mem Prod.fst (List.mem_of_mem_filter he)

theorem count_childContribs (entries : List (String × SAssPiece))
    (rootName : Option String) (es : List (String × SAssPiece)) (nm : String)
    (p : SAssPiece) (hnd : (es.map Prod.fst).Nodup) (he : (nm, p) ∈ es)
    (k : String) :
    (childContribs entries rootName es k).count nm =
      if attachedTo entries rootName (nm, p) = some k then 1 else 0 := by
  induction es with
  | nil => cases he
  | cons e es ih =>
    have hnd3 : (e.1 :: es.map Prod.fst).Nodup := by simpa using hnd
    have hnd2 := List.nodup_cons.mp hnd3
    rw [childContribs, List.filter_cons]
    rcases List.mem_cons.mp he with heq | hmem
    · subst heq
      have hzero : (childContribs entries rootName es k).count nm = 0 := by
        apply List.count_eq_zero_of_not_mem
        intro hc
        exact hnd2.1 (childContribs_subset entries rootName es k nm hc)
      split
      · next hcond =>
        rw [List.map_cons]
        have : attachedTo entries rootName (nm, p) = some k := by
          simpa using hcond
        rw [if_pos this]
        show ((nm :: childContribs entries rootName es k).count nm) = 1
        rw [List.count_cons_self, hzero]
      · next hcond =>
        have : ¬(attachedTo entries rootName (nm, p) = some k) := by
          simpa using hcond
        rw [if_neg this]
        exact hzero
    · have h1 : e.1 ≠ nm := by
        intro hc
        exact hnd2.1 (hc ▸ List.mem_map_of_mem Prod.fst hmem)
      have ihv := ih hnd2.2 hmem
      rw [childContribs] at ihv
      split
      · rw [List.map_cons]
        show ((e.1 :: _).count nm) = _
        rw [List.count_cons_of_ne (Ne.symm h1)]
        exact ihv
      · exact ihv

theorem buildPieceHierarchy_count (entries : List (String × SAssPiece))
    (rootName : Option String) (nm : String) (p : SAssPiece)
    (hnd : (entries.map Prod.fst).Nodup) (he : (nm, p) ∈ entries)
    (k : String) (l2 : List String)
    (hl : List.lookup k (buildPieceHierarchy entries rootName).children = some l2) :
    l2.count nm = if attachedTo entries rootName (nm, p) = some k then 1 else 0 := by
  rw [buildPieceHierarchy, foldl_buildStep_children] at hl
  dsimp only at hl
  rw [lookup_map_const] at hl
  by_cases hkin : k ∈ entries.map Prod.fst
  · rw [if_pos hkin, Option.map_some'] at hl
    have hl2 := Option.some.inj hl
    rw [← hl2, List.nil_append]
    exact count_childContribs entries rootName entries nm p hnd he k
  · rw [if_neg hkin] at hl
    simp at hl

theorem buildPieceHierarchy_parent_lookup (entries : List (String × SAssPiece))
    (rootName : Option String) (nm : String) (p : SAssPiece)
    (hnd : (entries.map Prod.fst).Nodup) (he : (nm, p) ∈ entries) :
    List.lookup nm (buildPieceHierarchy entries rootName).parents =
      (parentDecision entries rootName (nm, p)).map Prod.snd := by
  rw [buildPieceHierarchy, foldl_buildStep_parents]
  dsimp only
  rw [List.nil_append]
  refine lookup_filterMap_keyed entries _ ?_ hnd nm p he
  intro e x hx
  rw [parentDecision] at hx
  split_ifs at hx with h1 h2 <;> injection hx with hx2 <;> subst hx2 <;> rfl

theorem buildPieceHierarchy_errors_mem (entries : List (String × SAssPiece))
    (rootName : Option String) (e : String × SAssPiece) (he : e ∈ entries)
    (err : HierError) (hd : errorDecision entries rootName e = some err) :
    err ∈ (buildPieceHierarchy entries rootName).errors := by
  rw [buildPieceHierarchy, foldl_buildStep_errors]
  dsimp only
  rw [List.nil_append]
  exact List.mem_filterMap.mpr ⟨e, he, hd⟩

/-- C7: the hierarchy-linking pass over the piece-map entries.  With
pieces identified by their (distinct) map keys: the root entry is
skipped (no back-reference assigned, never appended as a child); a
non-root entry with a non-empty `parentName` found in the map gets its
back-reference set to that parent and is appended exactly once to that
parent's child sequence (count 1 there, 0 in every other sequence); if
the declared parent is missing, a `missingParent` error is logged and
the piece stays detached (null back-reference, in no child sequence); a
non-root entry with empty `parentName` is attached directly under the
root; and with no root piece at all, the orphan case logs the
fatal-level `missingRoot` error and leaves the piece detached. -/
theorem buildPieceHierarchy_spec (entries : List (String × SAssPiece))
    (rootName : Option String) (nm : String) (p : SAssPiece)
    (hnd : (entries.map Prod.fst).Nodup) (he : (nm, p) ∈ entries) :
    (some nm = rootName →
      List.lookup nm (buildPieceHierarchy entries rootName).parents = none ∧
      ∀ k l2, List.lookup k (buildPieceHierarchy entries rootName).children =
          some l2 → l2.count nm = 0) ∧
    (some nm ≠ rootName → p.parentName ≠ "" →
      ∀ q, findPiece entries p.parentName = some q →
      List.lookup nm (buildPieceHierarchy entries rootName).parents =
        some (some p.parentName) ∧
      ∀ k l2, List.lookup k (buildPieceHierarchy entries rootName).children =
          some l2 → l2.count nm = if k = p.parentName then 1 else 0) ∧
    (some nm ≠ rootName → p.parentName ≠ "" →
      findPiece entries p.parentName = none →
      List.lookup nm (buildPieceHierarchy entries rootName).parents = some none ∧
      HierError.missingParent p.parentName nm ∈
        (buildPieceHierarchy entries rootName).errors ∧
      ∀ k l2, List.lookup k (buildPieceHierarchy entries rootName).children =
          some l2 → l2.count nm = 0) ∧
    (some nm ≠ rootName → p.parentName = "" →
      ∀ rn, rootName = some rn →
      List.lookup nm (buildPieceHierarchy entries rootName).parents =
        some (some rn) ∧
      ∀ k l2, List.lookup k (buildPieceHierarchy entries rootName).children =
          some l2 → l2.count nm = if k = rn then 1 else 0) ∧
    (some nm ≠ rootName → p.parentName = "" → rootName = none →
      List.lookup nm (buildPieceHierarchy entries rootName).parents = some none ∧
      HierError.missingRoot nm ∈ (buildPieceHierarchy entries rootName).errors ∧
      ∀ k l2, List.lookup k (buildPieceHierarchy entries rootName).children =
          some l2 → l2.count nm = 0) := by
  have hpd := buildPieceHierarchy_parent_lookup entries rootName nm p hnd he
  refine ⟨?_, ?_, ?_, ?_, ?_⟩
  · intro hr
    constructor
    · rw [hpd, parentDecision, if_pos hr]
      rfl
    · intro k l2 hl
      rw [buildPieceHierarchy_count entries rootName nm p hnd he k l2 hl]
      rw [attachedTo, if_pos hr]
      simp
  · intro hr hpn q hq
    constructor
    · rw [hpd, parentDecision, if_neg hr, if_pos hpn, hq]
      rfl
    · intro k l2 hl
      rw [buildPieceHierarchy_count entries rootName nm p hnd he k l2 hl]
      rw [attachedTo, if_neg hr, if_pos hpn, hq]
      simp only [Option.some.injEq]
      exact if_congr (by constructor <;> exact fun h => h.symm) rfl rfl
  · intro hr hpn hq
    refine ⟨?_, ?_, ?_⟩
    · rw [hpd, parentDecision, if_neg hr, if_pos hpn, hq]
      rfl
    · apply buildPieceHierarchy_errors_mem entries rootName (nm, p) he
      rw [errorDecision.eq_def, if_neg hr, if_pos hpn, hq]
    · intro k l2 hl
      rw [buildPieceHierarchy_count entries rootName nm p hnd he k l2 hl]
      rw [attachedTo, if_neg hr, if_pos hpn, hq]
      simp
  · intro hr hpn rn hrn
    have hpn2 : ¬(p.parentName ≠ "") := by simp [hpn]
    constructor
    · rw [hpd, parentDecision, if_neg hr, if_neg hpn2, hrn]
      rfl
    · intro k l2 hl
      rw [buildPieceHierarchy_count entries rootName nm p hnd he k l2 hl]
      rw [attachedTo, if_neg hr, if_neg hpn2, hrn]
      simp only [Option.some.injEq]
      exact if_congr (by constructor <;> exact fun h => h.symm) rfl rfl
  · intro hr hpn hrn
    have hpn2 : ¬(p.parentName ≠ "") := by simp [hpn]
    refine ⟨?_, ?_, ?_⟩
    · rw [hpd, parentDecision, if_neg hr, if_neg hpn2, hrn]
      rfl
    · apply buildPieceHierarchy_errors_mem entries rootName (nm, p) he
      rw [errorDecision.eq_def, if_neg hr, if_neg hpn2, hrn]
    · intro k l2 hl
      rw [buildPieceHierarchy_count entries rootName nm p hnd he k l2 hl]
      rw [attachedTo, if_neg hr, if_neg hpn2, hrn]
      simp

/-- A two-entry piece map (root plus one child declaring it as parent). -/
def hierEntries : List (String × SAssPiece) :=
  [("R", { defaultPiece with name := "R" }),
   ("T", { defaultPiece with name := "T", parentName := "R" })]

theorem buildPieceHierarchy_spec_witness :
    ((hierEntries.map Prod.fst).Nodup ∧
      ("T", { defaultPiece with name := "T", parentName := "R" }) ∈ hierEntries) ∧
    (some "T" ≠ some "R" →
      ({ defaultPiece with name := "T", parentName := "R" } : SAssPiece).parentName ≠ "" →
      ∀ q, findPiece hierEntries
          ({ defaultPiece with name := "T", parentName := "R" } : SAssPiece).parentName =
          some q →
      List.lookup "T" (buildPieceHierarchy hierEntries (some "R")).parents =
        some (some ({ defaultPiece with name := "T", parentName := "R" } : SAssPiece).parentName) ∧
      ∀ k l2, List.lookup k (buildPieceHierarchy hierEntries (some "R")).children =
          some l2 →
        l2.count "T" =
          if k = ({ defaultPiece with name := "T", parentName := "R" } : SAssPiece).parentName
          then 1 else 0) :=
  ⟨⟨by decide, by decide⟩,
   (buildPieceHierarchy_spec hierEntries (some "R") "T"
      { defaultPiece with name := "T", parentName := "R" }
      (by decide) (by decide)).2.1⟩

/-- The two reserved marker names of `SetModelRadiusAndHeight`. -/
def isMarkerName (s : String) : Bool :=
  s == "SpringHeight" || s == "SpringRadius"

mutual
/-- Every node name reported in a scene subtree (pre-order). -/
def nodeNames : aiNode → List String
  | .mk n _ _ _ _ cs => n :: nodeNamesList cs
def nodeNamesList : List aiNode → List String
  | [] => []
  | c :: cs => nodeNames c ++ nodeNamesList cs
end

mutual
/-- The names of the pieces a subtree inserts into the piece map, in
insertion order (children before their parent, marker subtrees dropped),
assuming resolution keeps the reported names (fresh, non-empty). -/
def liveNames : aiNode → List String
  | .mk n _ _ _ _ cs =>
    if isMarkerName n then [] else liveNamesList cs ++ [n]
def liveNamesList : List aiNode → List String
  | [] => []
  | c :: cs => liveNames c ++ liveNamesList cs
end

mutual
def liveNames_subset : (n : aiNode) → ∀ s, s ∈ liveNames n → s ∈ nodeNames n
  | .mk nm0 sd td rd mi cs => fun s hs => by
    rw [liveNames] at hs
    rw [nodeNames]
    split at hs
    · cases hs
    · rcases List.mem_append.mp hs with h | h
      · exact List.mem_cons_of_mem _ (liveNamesList_subset cs s h)
      · simp at h
        simp [h]
def liveNamesList_subset : (cs : List aiNode) → ∀ s, s ∈ liveNamesList cs →
    s ∈ nodeNamesList cs
  | [] => fun s hs => by cases hs
  | c :: cs => fun s hs => by
    rw [liveNamesList] at hs
    rw [nodeNamesList]
    rcases List.mem_append.mp hs with h | h
    · exact List.mem_append.mpr (Or.inl (liveNames_subset c s h))
    · exact List.mem_append.mpr (Or.inr (liveNamesList_subset cs s h))
end

mutual
def liveNames_nodup : (n : aiNode) → (nodeNames n).Nodup → (liveNames n).Nodup
  | .mk nm0 sd td rd mi cs => fun hnd => by
    rw [nodeNames] at hnd
    rw [liveNames]
    have hnd2 := List.nodup_cons.mp hnd
    split
    · exact List.nodup_nil
    · rw [List.nodup_append]
      refine ⟨liveNamesList_nodup cs hnd2.2, List.nodup_singleton _, ?_⟩
      intro s hs
      simp only [List.mem_singleton]
      intro hc
      subst hc
      exact hnd2.1 (liveNamesList_subset cs s hs)
def liveNamesList_nodup : (cs : List aiNode) →
    (nodeNamesList cs).Nodup → (liveNamesList cs).Nodup
  | [] => fun _ => List.nodup_nil
  | c :: cs => fun hnd => by
    rw [nodeNamesList] at hnd
    rw [liveNamesList]
    rw [List.nodup_append] at hnd ⊢
    refine ⟨liveNames_nodup c hnd.1, liveNamesList_nodup cs hnd.2.1, ?_⟩
    intro s hs1 hs2
    exact hnd.2.2 (liveNames_subset c s hs1) (liveNamesList_subset cs s hs2)
end

theorem setPieceName_of_fresh (keys : List String) (nodeName : String) (b : Bool)
    (h1 : nodeName ≠ "") (h2 : nodeName ∉ keys) :
    setPieceName keys nodeName b = nodeName := by
  rw [setPieceName, if_neg h1, resolveCollision, if_neg h2]

theorem mapInsert_fresh (m : List (String × SAssPiece)) (k : String) (v : SAssPiece)
    (h : k ∉ m.map Prod.fst) : mapInsert m k v = m ++ [(k, v)] := by
  rw [mapInsert, if_neg h]

theorem setModelRadiusAndHeight_true_name (m m2 : S3DModel) (p : SAssPiece)
    (t : LuaTable) (h : setModelRadiusAndHeight m p t = (m2, true)) :
    p.name = "SpringHeight" ∨ p.name = "SpringRadius" := by
  by_cases h1 : p.name = "SpringHeight"
  · exact Or.inl h1
  · by_cases h2 : p.name = "SpringRadius"
    · exact Or.inr h2
    · rw [setModelRadiusAndHeight, if_neg h1, if_neg h2] at h
      exact absurd (congrArg Prod.snd h) (by simp)

theorem isMarkerName_false_iff (s : String) :
    isMarkerName s = false ↔ (s ≠ "SpringHeight" ∧ s ≠ "SpringRadius") := by
  rw [isMarkerName]
  simp

theorem built_piece_name (ctx : AssCtx) (b : Bool) (pt : LuaTable)
    (s t : float3) (r : CMatrix33) (mi : List Nat) (scene : List aiMesh)
    (pinfo : Option (String × Bool)) (rn nm : String) :
    (setPieceParentName
      (loadPieceGeometry
        (loadPieceTransformations ctx { defaultPiece with name := nm } b pt s t r)
        mi scene) pt pinfo rn).name = nm := by
  rw [setPieceParentName_name, loadPieceGeometry_name, loadPieceTransformations_name]

mutual
def loadPiece_live : (n : aiNode) → ∀ (ctx : AssCtx) (model : S3DModel)
    (pinfo : Option (String × Bool)),
    (∀ s ∈ nodeNames n, s ≠ "") →
    (nodeNames n).Nodup →
    (∀ s ∈ nodeNames n, s ∉ model.pieceMap.map Prod.fst) →
    (∃ ps, (loadPiece ctx model n pinfo).1.pieceMap = model.pieceMap ++ ps ∧
       ps.map Prod.fst = liveNames n ∧
       (∀ e ∈ ps, e.2.name = e.1) ∧
       (isMarkerName n.nodeName = true →
         ps = [] ∧ (loadPiece ctx model n pinfo).2 = none) ∧
       (isMarkerName n.nodeName = false →
         ∃ p2 ps0, (loadPiece ctx model n pinfo).2 = some p2 ∧
           p2.name = n.nodeName ∧ ps = ps0 ++ [(n.nodeName, p2)])) ∧
    (loadPiece ctx model n pinfo).1.numPieces =
      model.numPieces + (liveNames n).length ∧
    (pinfo ≠ none → (loadPiece ctx model n pinfo).1.rootPiece = model.rootPiece) ∧
    (pinfo = none → isMarkerName n.nodeName = false →
      (loadPiece ctx model n pinfo).1.rootPiece = (loadPiece ctx model n pinfo).2)
  | .mk nodeName sdec tdec rdec mi cs => fun ctx model pinfo hne hnd hdisj => by
    have hself : nodeName ≠ "" := hne nodeName (by rw [nodeNames]; exact List.mem_cons_self _ _)
    have hfresh : nodeName ∉ model.pieceMap.map Prod.fst :=
      hdisj nodeName (by rw [nodeNames]; exact List.mem_cons_self _ _)
    have hnd2 := List.nodup_cons.mp (by rw [nodeNames] at hnd; exact hnd)
    have hnm : ∀ b, setPieceName (model.pieceMap.map Prod.fst) nodeName b = nodeName :=
      fun b => setPieceName_of_fresh _ _ b hself hfresh
    cases pinfo with
    | some pi2 =>
      simp only [loadPiece, Option.isNone, Bool.false_eq_true, if_false]
      rw [hnm]
      split
      · next model3 heq =>
        have htn := setModelRadiusAndHeight_true_name _ _ _ _ heq
        rw [loadPieceTransformations_name] at htn
        dsimp only at htn
        have hmark : isMarkerName nodeName = true := by
          rcases htn with h | h <;> simp [isMarkerName, h]
        have hfst := congrArg (fun r : S3DModel × Bool => r.1) heq
        have hsnd := congrArg (fun r : S3DModel × Bool => r.2) heq
        dsimp only at hfst hsnd
        have hpm : model3.pieceMap = model.pieceMap := by
          rw [← hfst, (setModelRadiusAndHeight_state _ _ _).1]
        have hnum : model3.numPieces = model.numPieces := by
          rw [← hfst, (setModelRadiusAndHeight_state _ _ _).2.2.2.2.1 hsnd]
          dsimp only
          ring
        have hrp : model3.rootPiece = model.rootPiece := by
          rw [← hfst, (setModelRadiusAndHeight_state _ _ _).2.1]
        refine ⟨⟨[], by simp [hpm], by simp [liveNames, hmark], by simp, ?_, ?_⟩, ?_, ?_, ?_⟩
        · intro h2m
          exact ⟨rfl, rfl⟩
        · intro h2m
          rw [aiNode.nodeName] at h2m
          rw [h2m] at hmark
          cases hmark
        · simp [liveNames, hmark, hnum]
        · intro h2
          exact hrp
        · intro h2
          cases h2
      · next model3 heq =>
        have hfalse := setModelRadiusAndHeight_false_name _ _ _ _ heq
        rw [loadPieceTransformations_name] at hfalse
        dsimp only at hfalse
        have hmark : isMarkerName nodeName = false :=
          (isMarkerName_false_iff nodeName).mpr hfalse
        have hfst := congrArg (fun r : S3DModel × Bool => r.1) heq
        have hsnd := congrArg (fun r : S3DModel × Bool => r.2) heq
        dsimp only at hfst hsnd
        have hm3 := (setModelRadiusAndHeight_state _ _ _).2.2.2.2.2 hsnd
        rw [hfst] at hm3
        rw [hm3]
        dsimp only
        have hneb : ∀ s ∈ nodeNamesList cs, s ≠ "" := fun s hs =>
          hne s (by rw [nodeNames]; exact List.mem_cons_of_mem _ hs)
        have hdisjb : ∀ s ∈ nodeNamesList cs, s ∉ model.pieceMap.map Prod.fst :=
          fun s hs =>
            hdisj s (by rw [nodeNames]; exact List.mem_cons_of_mem _ hs)
        obtain ⟨⟨ps, hp1, hp2, hp3⟩, hpn, hpr⟩ :=
          loadChildren_live cs ctx
            { numPieces := model.numPieces + 1, pieceMap := model.pieceMap,
              rootPiece := model.rootPiece, height := model.height,
              radius := model.radius, relMidPos := model.relMidPos,
              mins := model.mins, maxs := model.maxs }
            (nodeName, false) hneb hnd2.2 hdisjb
        have hfreshall : nodeName ∉
            ((loadChildren ctx
              { numPieces := model.numPieces + 1, pieceMap := model.pieceMap,
                rootPiece := model.rootPiece, height := model.height,
                radius := model.radius, relMidPos := model.relMidPos,
                mins := model.mins, maxs := model.maxs }
              cs (some (nodeName, false))).pieceMap).map Prod.fst := by
          rw [hp1]
          rw [List.map_append, List.mem_append]
          rintro (h | h)
          · exact hfresh h
          · rw [hp2] at h
            exact hnd2.1 (liveNamesList_subset cs _ h)
        rw [built_piece_name, mapInsert_fresh _ _ _ hfreshall]
        refine ⟨⟨ps ++ [(nodeName, ?_)], ?_, ?_, ?_, ?_, ?_⟩, ?_, ?_, ?_⟩
        · exact setPieceParentName
            (loadPieceGeometry
              (loadPieceTransformations ctx { defaultPiece with name := nodeName }
                false (ctx.pieceTables nodeName) sdec tdec rdec) mi ctx.scene)
            (ctx.pieceTables nodeName) (some pi2)
            (rootPieceName
              { numPieces := model.numPieces + 1, pieceMap := model.pieceMap,
                rootPiece := model.rootPiece, height := model.height,
                radius := model.radius, relMidPos := model.relMidPos,
                mins := model.mins, maxs := model.maxs })
        · dsimp only
          rw [hp1, List.append_assoc]
        · simp only [List.map_append, hp2, List.map_cons, List.map_nil]
          simp [liveNames, hmark]
        · intro e heIn
          rcases List.mem_append.mp heIn with h | h
          · exact hp3 e h
          · rw [List.mem_singleton] at h
            rw [h]
            exact built_piece_name ctx false (ctx.pieceTables nodeName) sdec tdec
              rdec mi ctx.scene (some pi2) _ nodeName
        · intro h2m
          rw [aiNode.nodeName] at h2m
          rw [h2m] at hmark
          cases hmark
        · intro h2m
          exact ⟨_, ps, rfl,
            built_piece_name ctx false (ctx.pieceTables nodeName) sdec tdec rdec
              mi ctx.scene (some pi2) _ nodeName, rfl⟩
        · dsimp only
          rw [hpn]
          dsimp only
          simp only [liveNames, hmark, Bool.false_eq_true, if_false,
            List.length_append, List.length_cons, List.length_nil]
          push_cast
          ring
        · intro h2
          rw [hpr]
        · intro h2
          cases h2
    | none =>
      simp only [loadPiece, Option.isNone, if_true]
      rw [hnm]
      split
      · next model3 heq =>
        have htn := setModelRadiusAndHeight_true_name _ _ _ _ heq
        rw [loadPieceTransformations_name] at htn
        dsimp only at htn
        have hmark : isMarkerName nodeName = true := by
          rcases htn with h | h <;> simp [isMarkerName, h]
        have hfst := congrArg (fun r : S3DModel × Bool => r.1) heq
        have hsnd := congrArg (fun r : S3DModel × Bool => r.2) heq
        dsimp only at hfst hsnd
        have hpm : model3.pieceMap = model.pieceMap := by
          rw [← hfst, (setModelRadiusAndHeight_state _ _ _).1]
        have hnum : model3.numPieces = model.numPieces := by
          rw [← hfst, (setModelRadiusAndHeight_state _ _ _).2.2.2.2.1 hsnd]
          dsimp only
          ring
        refine ⟨⟨[], by simp [hpm], by simp [liveNames, hmark], by simp, ?_, ?_⟩,
          ?_, ?_, ?_⟩
        · intro h2m
          exact ⟨rfl, rfl⟩
        · intro h2m
          rw [aiNode.nodeName] at h2m
          rw [h2m] at hmark
          cases hmark
        · simp [liveNames, hmark, hnum]
        · intro h2
          exact absurd rfl h2
        · intro _ h2m
          rw [aiNode.nodeName] at h2m
          rw [h2m] at hmark
          cases hmark
      · next model3 heq =>
        have hfalse := setModelRadiusAndHeight_false_name _ _ _ _ heq
        rw [loadPieceTransformations_name] at hfalse
        dsimp only at hfalse
        have hmark : isMarkerName nodeName = false :=
          (isMarkerName_false_iff nodeName).mpr hfalse
        have hfst := congrArg (fun r : S3DModel × Bool => r.1) heq
        have hsnd := congrArg (fun r : S3DModel × Bool => r.2) heq
        dsimp only at hfst hsnd
        have hm3 := (setModelRadiusAndHeight_state _ _ _).2.2.2.2.2 hsnd
        rw [hfst] at hm3
        rw [hm3]
        dsimp only
        have hneb : ∀ s ∈ nodeNamesList cs, s ≠ "" := fun s hs =>
          hne s (by rw [nodeNames]; exact List.mem_cons_of_mem _ hs)
        have hdisjb : ∀ s ∈ nodeNamesList cs, s ∉ model.pieceMap.map Prod.fst :=
          fun s hs =>
            hdisj s (by rw [nodeNames]; exact List.mem_cons_of_mem _ hs)
        set P2 := loadPieceTransformations ctx { defaultPiece with name := nodeName }
          true (ctx.pieceTables nodeName) sdec tdec rdec with hP2def
        set MR : S3DModel :=
          { numPieces := model.numPieces + 1, pieceMap := model.pieceMap,
            rootPiece := some P2, height := model.height, radius := model.radius,
            relMidPos := model.relMidPos, mins := model.mins,
            maxs := model.maxs } with hMRdef
        set P4 := setPieceParentName (loadPieceGeometry P2 mi ctx.scene)
          (ctx.pieceTables nodeName) none (rootPieceName MR) with hP4def
        set M4 : S3DModel :=
          { numPieces := model.numPieces + 1, pieceMap := model.pieceMap,
            rootPiece := some P4, height := model.height, radius := model.radius,
            relMidPos := model.relMidPos, mins := model.mins,
            maxs := model.maxs } with hM4def
        have hM4pm : M4.pieceMap = model.pieceMap := by rw [hM4def]
        have hM4num : M4.numPieces = model.numPieces + 1 := by rw [hM4def]
        have hM4root : M4.rootPiece = some P4 := by rw [hM4def]
        obtain ⟨⟨ps, hp1, hp2, hp3⟩, hpn, hpr⟩ :=
          loadChildren_live cs ctx M4 (nodeName, true) hneb hnd2.2
            (by simp only [hM4pm]; exact hdisjb)
        have hfreshall : nodeName ∉
            ((loadChildren ctx M4 cs (some (nodeName, true))).pieceMap).map
              Prod.fst := by
          rw [hp1, hM4pm, List.map_append, List.mem_append]
          rintro (h | h)
          · exact hfresh h
          · rw [hp2] at h
            exact hnd2.1 (liveNamesList_subset cs _ h)
        have hp4name : P4.name = nodeName := by
          rw [hP4def, setPieceParentName_name, loadPieceGeometry_name, hP2def,
            loadPieceTransformations_name]
        rw [hp4name, mapInsert_fresh _ _ _ hfreshall]
        refine ⟨⟨ps ++ [(nodeName, P4)], ?_, ?_, ?_, ?_, ?_⟩, ?_, ?_, ?_⟩
        · dsimp only
          rw [hp1, hM4pm, List.append_assoc]
        · simp only [List.map_append, hp2, List.map_cons, List.map_nil]
          simp [liveNames, hmark]
        · intro e heIn
          rcases List.mem_append.mp heIn with h | h
          · exact hp3 e h
          · rw [List.mem_singleton] at h
            rw [h]
            exact hp4name
        · intro h2m
          rw [aiNode.nodeName] at h2m
          rw [h2m] at hmark
          cases hmark
        · intro h2m
          exact ⟨P4, ps, rfl, hp4name, rfl⟩
        · dsimp only
          rw [hpn, hM4num]
          simp only [liveNames, hmark, Bool.false_eq_true, if_false,
            List.length_append, List.length_cons, List.length_nil]
          push_cast
          ring
        · intro h2
          exact absurd rfl h2
        · intro _ _
          rw [hpr, hM4root]
def loadChildren_live : (cs : List aiNode) → ∀ (ctx : AssCtx) (model : S3DModel)
    (pi2 : String × Bool),
    (∀ s ∈ nodeNamesList cs, s ≠ "") →
    (nodeNamesList cs).Nodup →
    (∀ s ∈ nodeNamesList cs, s ∉ model.pieceMap.map Prod.fst) →
    (∃ ps, (loadChildren ctx model cs (some pi2)).pieceMap = model.pieceMap ++ ps ∧
       ps.map Prod.fst = liveNamesList cs ∧ (∀ e ∈ ps, e.2.name = e.1)) ∧
    (loadChildren ctx model cs (some pi2)).numPieces =
      model.numPieces + (liveNamesList cs).length ∧
    (loadChildren ctx model cs (some pi2)).rootPiece = model.rootPiece
  | [] => fun ctx model pi2 hne hnd hdisj => by
    refine ⟨⟨[], by simp [loadChildren], by simp [liveNamesList], by simp⟩, ?_, ?_⟩ <;>
      simp [loadChildren, liveNamesList]
  | c :: cs => fun ctx model pi2 hne hnd hdisj => by
    have hnea : ∀ s ∈ nodeNames c, s ≠ "" := fun s hs =>
      hne s (by rw [nodeNamesList]; exact List.mem_append.mpr (Or.inl hs))
    have hneb : ∀ s ∈ nodeNamesList cs, s ≠ "" := fun s hs =>
      hne s (by rw [nodeNamesList]; exact List.mem_append.mpr (Or.inr hs))
    have hnd0 : (nodeNames c ++ nodeNamesList cs).Nodup := by
      rw [nodeNamesList] at hnd; exact hnd
    have hnda := (List.nodup_append.mp hnd0).1
    have hndb := (List.nodup_append.mp hnd0).2.1
    have hdisj0 := (List.nodup_append.mp hnd0).2.2
    have hdisja : ∀ s ∈ nodeNames c, s ∉ model.pieceMap.map Prod.fst := fun s hs =>
      hdisj s (by rw [nodeNamesList]; exact List.mem_append.mpr (Or.inl hs))
    obtain ⟨⟨ps1, hc1, hc2, hc3, _, _⟩, hcn, hcr, _⟩ :=
      loadPiece_live c ctx model (some pi2) hnea hnda hdisja
    have hdisjb : ∀ s ∈ nodeNamesList cs,
        s ∉ (loadPiece ctx model c (some pi2)).1.pieceMap.map Prod.fst := by
      intro s hs
      rw [hc1, List.map_append, List.mem_append]
      rintro (h | h)
      · exact hdisj s (by rw [nodeNamesList]; exact List.mem_append.mpr (Or.inr hs)) h
      · rw [hc2] at h
        exact hdisj0 (liveNames_subset c s h) hs
    obtain ⟨⟨ps2, hd1, hd2, hd3⟩, hdn, hdr⟩ :=
      loadChildren_live cs ctx (loadPiece ctx model c (some pi2)).1 pi2 hneb hndb hdisjb
    have hstep : loadChildren ctx model (c :: cs) (some pi2) =
        loadChildren ctx (loadPiece ctx model c (some pi2)).1 cs (some pi2) := by
      rw [loadChildren]
    refine ⟨⟨ps1 ++ ps2, ?_, ?_, ?_⟩, ?_, ?_⟩
    · rw [hstep, hd1, hc1, List.append_assoc]
    · rw [List.map_append, hc2, hd2, liveNamesList]
    · intro e heIn
      rcases List.mem_append.mp heIn with h | h
      · exact hc3 e h
      · exact hd3 e h
    · rw [hstep, hdn, hcn, liveNamesList]
      rw [List.length_append]
      push_cast
      ring
    · rw [hstep, hdr, hcr (by simp)]
end

theorem lookup_append_right {β : Type} (l1 l2 : List (String × β)) (k : String)
    (h : k ∉ l1.map Prod.fst) : List.lookup k (l1 ++ l2) = List.lookup k l2 := by
  induction l1 with
  | nil => rfl
  | cons e es ih =>
    have h1 : e.1 ≠ k := fun hc => h (by rw [List.map_cons, hc]; exact List.mem_cons_self _ _)
    have hbe : (k == e.1) = false := by simp [Ne.symm h1]
    rw [List.cons_append]
    simp only [List.lookup, hbe]
    exact ih (fun hc => h (by rw [List.map_cons]; exact List.mem_cons_of_mem _ hc))

/-- C1 (amended): loading a scene whose reported node names are
non-empty and pairwise distinct, with a non-marker root, from a fresh
model yields: exactly one root piece, present in the piece map under its
resolved name; pairwise-distinct map keys with every entry's piece named
by its key (each surviving piece occurs exactly once); and a piece
counter equal to the map's size.  (Without the distinctness hypothesis
the invariant fails - see the shadowing counterexample.) -/
theorem loadPiece_model_invariant (ctx : AssCtx) (n : aiNode)
    (hne : ∀ s ∈ nodeNames n, s ≠ "")
    (hnd : (nodeNames n).Nodup)
    (hmk : isMarkerName n.nodeName = false) :
    (∃ rp, (loadPiece ctx initModel n none).1.rootPiece = some rp ∧
       findPiece (loadPiece ctx initModel n none).1.pieceMap rp.name = some rp) ∧
    ((loadPiece ctx initModel n none).1.pieceMap.map Prod.fst).Nodup ∧
    (∀ e ∈ (loadPiece ctx initModel n none).1.pieceMap, e.2.name = e.1) ∧
    (loadPiece ctx initModel n none).1.numPieces =
      ((loadPiece ctx initModel n none).1.pieceMap.length : Int) := by
  obtain ⟨⟨ps, hp1, hp2, hp3, hmt, hmf⟩, hnum, _, hroot⟩ :=
    loadPiece_live n ctx initModel none hne hnd (by simp [initModel])
  have hinit : initModel.pieceMap = [] := rfl
  rw [hinit, List.nil_append] at hp1
  obtain ⟨p2, ps0, hr2, hpname, hps⟩ := hmf hmk
  have hkeysnd : ((loadPiece ctx initModel n none).1.pieceMap.map Prod.fst).Nodup := by
    rw [hp1, hp2]
    exact liveNames_nodup n hnd
  refine ⟨⟨p2, ?_, ?_⟩, hkeysnd, ?_, ?_⟩
  · rw [hroot rfl hmk, hr2]
  · rw [findPiece, hp1, hps, hpname]
    have hnotin : n.nodeName ∉ ps0.map Prod.fst := by
      have := liveNames_nodup n hnd
      rw [← hp2, hps, List.map_append] at this
      have h2 := (List.nodup_append.mp this).2.2
      intro hc
      exact h2 hc (by simp)
    rw [lookup_append_right ps0 _ _ hnotin]
    simp [List.lookup]
  · intro e heIn
    rw [hp1] at heIn
    exact hp3 e heIn
  · have hinitnum : initModel.numPieces = 0 := rfl
    rw [hnum, hp1, hinitnum]
    have hlen : ps.length = (liveNames n).length := by
      rw [← hp2, List.length_map]
    rw [← hlen]
    ring

/-- The two-node duplicate-free scene used as the C1 witness. -/
def nodeRT : aiNode :=
  .mk "R" float3.ones float3.zero CMatrix33.identity []
    [aiNode.mk "T" float3.ones float3.zero CMatrix33.identity [] []]

theorem loadPiece_model_invariant_witness :
    ((∀ s ∈ nodeNames nodeRT, s ≠ "") ∧ (nodeNames nodeRT).Nodup ∧
      isMarkerName nodeRT.nodeName = false) ∧
    ((∃ rp, (loadPiece trivCtx initModel nodeRT none).1.rootPiece = some rp ∧
       findPiece (loadPiece trivCtx initModel nodeRT none).1.pieceMap rp.name =
         some rp) ∧
     ((loadPiece trivCtx initModel nodeRT none).1.pieceMap.map Prod.fst).Nodup ∧
     (∀ e ∈ (loadPiece trivCtx initModel nodeRT none).1.pieceMap,
        e.2.name = e.1) ∧
     (loadPiece trivCtx initModel nodeRT none).1.numPieces =
       ((loadPiece trivCtx initModel nodeRT none).1.pieceMap.length : Int)) := by
  have h1 : ∀ s ∈ nodeNames nodeRT, s ≠ "" := by
    simp [nodeRT, nodeNames, nodeNamesList]
  have h2 : (nodeNames nodeRT).Nodup := by
    simp [nodeRT, nodeNames, nodeNamesList]
  have h3 : isMarkerName nodeRT.nodeName = false := by
    simp +decide [nodeRT, aiNode.nodeName, isMarkerName]
  exact ⟨⟨h1, h2, h3⟩, loadPiece_model_invariant trivCtx nodeRT h1 h2 h3⟩
